import Mathlib

/-!
Verification development for the htmlgenerator rendering core.

This file gives a shallow embedding, in Lean 4, of the lazy-evaluation and
rendering core of the htmlgenerator library (files `htmlgenerator/base.py`,
`htmlgenerator/lazy.py`, `htmlgenerator/htmltags.py`,
`htmlgenerator/safestring.py`), together with theorems settling a list of
claims about that code.

Modelling conventions:
- Python exceptions are an explicit `Exc` type carrying the exception class
  (the classes that the source discriminates on) and a message; fallible
  Python code becomes `Except`.
- Python values reachable from a rendering context are the type `RVal`;
  objects and callables carry an object id `oid` standing for Python object
  identity, and user code attached to an object (a property getter, a
  zero-argument callable) is modelled by its outcome, an `Except Exc RVal`.
  Only constant outcomes are representable, which is the sub-universe the
  claims need.
- Tree nodes are the type `Node`.  Context mappings are association lists
  with first-match lookup; Python dict update/merge is modelled so that a
  later binding shadows an earlier one.
- Generator-based rendering is modelled as functions producing the full
  list of yielded items.  In this version of the source every element
  either raises before its first yield or completes, so `Except` over the
  whole item list is faithful.
- Calls of the pluggable exception handler are collected in an event log;
  the handler object itself is treated as opaque (its own call is assumed
  to return normally, as the repository tests do).
- Python `repr`/`str` of objects whose default repr would contain a memory
  address is abstracted by a placeholder naming the object id; theorems
  below never depend on those strings concretely.
-/

/-- Python exception classes that the source code discriminates on,
together with the text `str(exception)` would produce. -/
inductive Exc where
  | typeError (msg : String)
  | attributeError (msg : String)
  | keyError (msg : String)
  | valueError (msg : String)
  | indexError (msg : String)
  | userError (msg : String)
deriving Repr, DecidableEq

/-- The text of an exception, as `str(exception)`. -/
def Exc.text : Exc → String
  | .typeError m | .attributeError m | .keyError m
  | .valueError m | .indexError m | .userError m => m

/-- Membership of an exception in the catch set
`(TypeError, AttributeError, KeyError, ValueError, IndexError)` of the
first lookup attempt of `resolve_lookup`. -/
def Exc.isLookupCatch : Exc → Bool
  | .typeError _ | .attributeError _ | .keyError _
  | .valueError _ | .indexError _ => true
  | .userError _ => false

/-- Membership in the catch set `(TypeError, AttributeError)` of the
`getattr` attempt of `resolve_lookup`. -/
def Exc.isTypeOrAttrErr : Exc → Bool
  | .typeError _ | .attributeError _ => true
  | _ => false

/-- Membership in the catch set `(IndexError, ValueError, KeyError,
TypeError)` of the list-index attempt of `resolve_lookup`. -/
def Exc.isIndexCatch : Exc → Bool
  | .indexError _ | .valueError _ | .keyError _ | .typeError _ => true
  | _ => false

/-- One character of `html.escape`: the five special characters become
entities. -/
def escapeChar (c : Char) : List Char :=
  if c = '&' then "&amp;".data
  else if c = '<' then "&lt;".data
  else if c = '>' then "&gt;".data
  else if c = '\x22' then "&quot;".data
  else if c = '\x27' then "&#x27;".data
  else [c]

/-- The escaping primitive `html.escape` used by
`safestring.conditional_escape`.  The standard library runs five
sequential `str.replace` calls, ampersand first; because the ampersands
introduced by the later entities are never revisited, that chain is
exactly the character-by-character substitution implemented here. -/
def htmlEscape (s : String) : String :=
  String.mk (s.data.map escapeChar).flatten

/-- Resolved (non-lazy) Python values, as storable in a context mapping or
produced by resolving a lazy value.  `str` carries the safe-string flag
(`SafeString`, i.e. the object exposes `__html__`).  `obj` models a plain
object: each attribute is either a stored value `Except.ok v` or a property
whose getter raises, `Except.error e`; `dir(obj)` is the list of attribute
names.  `func0` is a callable whose zero-argument call has the given
outcome; `funcN` is a callable that requires arguments. -/
inductive RVal where
  | none
  | bool (b : Bool)
  | int (n : Int)
  | str (s : String) (safe : Bool)
  | list (xs : List RVal)
  | dict (xs : List (String × RVal))
  | obj (oid : Nat) (attrs : List (String × Except Exc RVal))
  | func0 (oid : Nat) (res : Except Exc RVal)
  | funcN (oid : Nat)

/-- First-match lookup in an association list, the model of Python dict
key access (`d[k]`, `d.get(k)`). -/
def alookup {α : Type} (xs : List (String × α)) (k : String) : Option α :=
  match xs with
  | [] => Option.none
  | (k2, v) :: rest => if k2 = k then Option.some v else alookup rest k

/-- Python dict item assignment `d[k] = v`: replaces the first binding of
`k` if present, otherwise appends the new binding. -/
def aset {α : Type} (xs : List (String × α)) (k : String) (v : α) :
    List (String × α) :=
  match xs with
  | [] => [(k, v)]
  | (k2, w) :: rest =>
      if k2 = k then (k2, v) :: rest else (k2, w) :: aset rest k v

/-- Python dict merge `\x7b**a, **b\x7d`: every binding of `b` is assigned
into a copy of `a`, later bindings shadowing earlier ones. -/
def amerge {α : Type} (a b : List (String × α)) : List (String × α) :=
  match b with
  | [] => a
  | (k, v) :: rest => amerge (aset a k v) rest

/-- A rendering context: the Python dict passed through `render`. -/
abbrev Ctx := List (String × RVal)

/-- Python `str()` on the scalar values the renderer stringifies.  For
objects and callables, whose default text contains a memory address, an
abstract placeholder naming the object id is used. -/
def pyStr : RVal → String
  | .none => "None"
  | .bool b => if b then "True" else "False"
  | .int n => toString n
  | .str s _ => s
  | .list _ => "<list>"
  | .dict _ => "<dict>"
  | .obj oid _ => "<object " ++ toString oid ++ ">"
  | .func0 oid _ => "<function " ++ toString oid ++ ">"
  | .funcN oid => "<function " ++ toString oid ++ ">"

/-- Python truthiness of a resolved value. -/
def RVal.truthy : RVal → Bool
  | .none => false
  | .bool b => b
  | .int n => n != 0
  | .str s _ => s ≠ ""
  | .list xs => !xs.isEmpty
  | .dict xs => !xs.isEmpty
  | .obj _ _ => true
  | .func0 _ _ => true
  | .funcN _ => true

/-- Whether a value answers `callable(v)` with True. -/
def RVal.isCallable : RVal → Bool
  | .func0 _ _ => true
  | .funcN _ => true
  | _ => false

/-- Python `int(s)` on a string: optional surrounding whitespace, an
optional sign, then at least one digit (the underscore-separator extension
is not modelled). -/
def pyToInt? (s : String) : Option Int :=
  let t := (s.data.dropWhile Char.isWhitespace).reverse.dropWhile
    Char.isWhitespace |>.reverse
  let neg := t.headD ' ' = '-'
  let core := if neg ∨ t.headD ' ' = '+' then t.tail else t
  if core.length > 0 ∧ core.all Char.isDigit then
    let mag : Int := Int.ofNat (core.foldl (fun a c => a * 10 + c.toNat - 48) 0)
    Option.some (if neg then -mag else mag)
  else
    Option.none

/-- Python subscription `current[bit]` with a string subscript, on the
values of the model (`lazy.resolve_lookup`, first attempt).  Dicts look the
key up, everything else has no string-keyed `__getitem__` and raises
TypeError. -/
def getItemStr : RVal → String → Except Exc RVal
  | .dict xs, bit =>
      match alookup xs bit with
      | Option.some v => Except.ok v
      | Option.none => Except.error (Exc.keyError bit)
  | _, _ => Except.error (Exc.typeError "value is not subscriptable by string")

/-- The outcome of Python `getattr(current, bit)` in the model: `found v`
when the attribute exists and its access succeeds, `raised e` when a
property getter raises `e`, `missing` (an AttributeError) otherwise.
Builtin attribute names of builtin types are outside the modelled
universe. -/
inductive AttrRes where
  | found (v : RVal)
  | raised (e : Exc)
  | missing

/-- Python `getattr(current, bit)` on the model values. -/
def getAttr : RVal → String → AttrRes
  | .obj _ attrs, bit =>
      match alookup attrs bit with
      | Option.some (Except.ok v) => AttrRes.found v
      | Option.some (Except.error e) => AttrRes.raised e
      | Option.none => AttrRes.missing
  | _, _ => AttrRes.missing

/-- Python `bit in dir(current)` on the model values: for plain objects the
attribute names, empty for everything else. -/
def inDir : RVal → String → Bool
  | .obj _ attrs, bit => (alookup attrs bit).isSome
  | _, _ => false

/-- Whether `isinstance(current, dict)` holds. -/
def RVal.isDict : RVal → Bool
  | .dict _ => true
  | _ => false

/-- Python list/string indexing: negative indices count from the end,
out-of-range access has no result. -/
def pyListIndex {α : Type} (xs : List α) (i : Int) : Option α :=
  let j : Int := if i < 0 then i + Int.ofNat xs.length else i
  if 0 ≤ j then xs.get? j.toNat else Option.none

/-- Python subscription `current[i]` with an integer subscript, the final
fallback of `resolve_lookup`.  Lists index (negative indices count from the
end), strings index into their characters (yielding a plain one-character
string, since `str.__getitem__` drops the SafeString subclass), dicts with
string keys raise KeyError, everything else raises TypeError. -/
def getItemInt : RVal → Int → Except Exc RVal
  | .list xs, i =>
      (match pyListIndex xs i with
       | Option.some v => Except.ok v
       | Option.none => Except.error (Exc.indexError "list index out of range"))
  | .str s _, i =>
      (match pyListIndex s.data i with
       | Option.some c =>
           Except.ok (RVal.str (String.singleton c) false)
       | Option.none =>
           Except.error (Exc.indexError "string index out of range"))
  | .dict _, _ => Except.error (Exc.keyError "no integer key")
  | _, _ => Except.error (Exc.typeError "value is not subscriptable by index")

/-- The call block at the end of each `resolve_lookup` iteration:
`if callable(current) and call_functions: current = current()`.  A
zero-argument callable is invoked; if the call itself raises TypeError the
code inspects the signature, and since no arguments were required the
exception is re-raised.  A callable requiring arguments raises TypeError at
the call, the signature bind then also raises, and the callable object is
kept unchanged. -/
def callStep (v : RVal) (call_functions : Bool) : Except Exc RVal :=
  if call_functions then
    match v with
    | .func0 _ res => res
    | .funcN _ => Except.ok v
    | _ => Except.ok v
  else
    Except.ok v

/-- One segment (`bit`) of `lazy.resolve_lookup`: try `current[bit]`; on a
caught lookup exception try `getattr(current, bit)`; a property that raises
TypeError or AttributeError is re-raised when the name is in
`dir(current)` and the value is not a dict, and any other exception from
the getter propagates directly; an absent attribute falls through to the
integer-subscript attempt whose caught failures make the whole lookup
return None.  `Except.ok Option.none` models that early `return None`. -/
def resolveSegment (current : RVal) (bit : String) (call_functions : Bool) :
    Except Exc (Option RVal) :=
  let after (v : RVal) : Except Exc (Option RVal) :=
    (callStep v call_functions).map Option.some
  match getItemStr current bit with
  | Except.ok v => after v
  | Except.error e =>
    if e.isLookupCatch then
      match getAttr current bit with
      | AttrRes.found v => after v
      | AttrRes.raised e2 =>
          if e2.isTypeOrAttrErr then
            -- caught; re-raised because the name is in dir(current) and
            -- current is not a dict (properties live on plain objects)
            if ¬ current.isDict ∧ inDir current bit then
              Except.error e2
            else
              Except.error e2  -- unreachable for model objects
          else
            Except.error e2
      | AttrRes.missing =>
          -- AttributeError caught; the name is absent so the dir test
          -- fails and the integer-subscript fallback runs
          match pyToInt? bit with
          | Option.none => Except.ok Option.none
          | Option.some i =>
            match getItemInt current i with
            | Except.ok v => after v
            | Except.error e3 =>
                if e3.isIndexCatch then Except.ok Option.none
                else Except.error e3
    else
      Except.error e

/-- The segment loop of `lazy.resolve_lookup` over the already split
lookup path. -/
def resolveBits (current : RVal) (bits : List String)
    (call_functions : Bool) : Except Exc RVal :=
  match bits with
  | [] => Except.ok current
  | bit :: rest =>
    match resolveSegment current bit call_functions with
    | Except.error e => Except.error e
    | Except.ok Option.none => Except.ok RVal.none
    | Except.ok (Option.some v) => resolveBits v rest call_functions

/-- Python `lookup.split(".")`: the dot-separated segments of the lookup
path (always at least one, the empty string splitting to `[""]`). -/
def splitDots (cs : List Char) (acc : List Char) : List String :=
  match cs with
  | [] => [String.mk acc.reverse]
  | c :: rest =>
      if c = '.' then String.mk acc.reverse :: splitDots rest []
      else splitDots rest (c :: acc)

/-- `lazy.resolve_lookup(context, lookup, call_functions=True)`: dotted
lookup of a value in a context dict.  The first `current` is the context
dict itself. -/
def resolve_lookup (context : Ctx) (lookup : String)
    (call_functions : Bool := true) : Except Exc RVal :=
  resolveBits (RVal.dict context) (splitDots lookup.data []) call_functions

/-- Nodes of a render tree.  Leaves are resolved Python values (`lit`) or
lazy values (`ctxValue` models `ContextValue`, alias `hg.C`, with a string
lookup path; `ctxFunc` models a `ContextFunction` whose body has a constant
outcome).  The element constructors correspond to the `BaseElement`
subclasses of the source; `If` stores its two children in its list exactly
as `If.__init__` does, `Iterator` and `WithContext` carry their extra
state next to their child list, `FormatString` stores the format string
(with its SafeString flag) and the positional and keyword arguments, and
`html` is an `HTMLElement` (or, when `voidTag` is true, a `VoidElement`)
with its tag and attribute dict. -/
inductive Node where
  | lit (v : RVal)
  | ctxValue (path : String)
  | ctxFunc (oid : Nat) (res : Except Exc RVal)
  | base (children : List Node)
  | ifElem (condition : Node) (children : List Node)
  | iterator (iter : Node) (loopvar : String) (children : List Node)
  | withContext (additional : List (String × RVal)) (children : List Node)
  | fragment (name : String) (children : List Node)
  | formatString (fmt : String) (fmtSafe : Bool) (args : List Node)
      (kwargs : List (String × Node))
  | html (tag : String) (voidTag : Bool) (attributes : List (String × Node))
      (children : List Node)

/-- Whether a node is a `BaseElement` (lazy values and plain leaves are
not). -/
def Node.isElement : Node → Bool
  | .lit _ | .ctxValue _ | .ctxFunc _ _ => false
  | _ => true

/-- The child list of a node, i.e. its contents as a Python list.
`FormatString.__init__` passes no children on, so its list is empty. -/
def Node.childList : Node → List Node
  | .base cs | .ifElem _ cs | .iterator _ _ cs
  | .withContext _ cs | .fragment _ cs | .html _ _ _ cs => cs
  | _ => []

/-- The Python class name of an element, for `repr`. -/
def Node.typeName : Node → String
  | .base _ => "BaseElement"
  | .ifElem _ _ => "If"
  | .iterator _ _ _ => "Iterator"
  | .withContext _ _ => "WithContext"
  | .fragment _ _ => "Fragment"
  | .formatString _ _ _ _ => "FormatString"
  | .html tag _ _ _ => tag.toUpper
  | _ => "<leaf>"

mutual

/-- Python `repr` of a resolved value (strings quoted, containers listed;
objects abstracted by their id). -/
def reprRVal : RVal → String
  | .none => "None"
  | .bool b => if b then "True" else "False"
  | .int n => toString n
  | .str s _ => "\x27" ++ s ++ "\x27"
  | .list xs => "[" ++ reprRValList xs ++ "]"
  | .dict xs => "\x7b" ++ reprRValPairs xs ++ "\x7d"
  | .obj oid _ => "<object " ++ toString oid ++ ">"
  | .func0 oid _ => "<function " ++ toString oid ++ ">"
  | .funcN oid => "<function " ++ toString oid ++ ">"

/-- Comma-separated reprs of list items. -/
def reprRValList : List RVal → String
  | [] => ""
  | [x] => reprRVal x
  | x :: rest => reprRVal x ++ ", " ++ reprRValList rest

/-- Comma-separated reprs of dict items. -/
def reprRValPairs : List (String × RVal) → String
  | [] => ""
  | [(k, v)] => "\x27" ++ k ++ "\x27: " ++ reprRVal v
  | (k, v) :: rest =>
      "\x27" ++ k ++ "\x27: " ++ reprRVal v ++ ", " ++ reprRValPairs rest

end

/-- Strips every leading underscore from an attribute name, Python
`key.lstrip("_")`, used by `HTMLElement.__repr__`. -/
def lstripUnderscore (s : String) : String :=
  String.mk (s.data.dropWhile (fun c => c = '_'))

mutual

/-- Python `repr` of a tree node: `BaseElement.__repr__` produces the class
name followed by the list repr of the children, and `HTMLElement.__repr__`
produces the tag with its attributes and class.  Lazy objects, whose
default repr contains a memory address, are abstracted. -/
def reprNode : Node → String
  | .lit v => reprRVal v
  | .ctxValue _ => "<ContextValue object>"
  | .ctxFunc _ _ => "<ContextFunction object>"
  | .html tag _ attrs _ =>
      "<" ++ tag ++ " " ++ reprAttrs attrs ++ "> (<class \x27htmlgenerator.htmltags."
        ++ tag.toUpper ++ "\x27>)"
  | .base cs => "BaseElement[" ++ reprNodeList cs ++ "]"
  | .ifElem _ cs => "If[" ++ reprNodeList cs ++ "]"
  | .iterator _ _ cs => "Iterator[" ++ reprNodeList cs ++ "]"
  | .withContext _ cs => "WithContext[" ++ reprNodeList cs ++ "]"
  | .fragment _ cs => "Fragment[" ++ reprNodeList cs ++ "]"
  | .formatString _ _ _ _ => "FormatString[]"

/-- Comma-separated reprs of child nodes. -/
def reprNodeList : List Node → String
  | [] => ""
  | [x] => reprNode x
  | x :: rest => reprNode x ++ ", " ++ reprNodeList rest

/-- The attribute part of `HTMLElement.__repr__`. -/
def reprAttrs : List (String × Node) → String
  | [] => ""
  | [(k, v)] => lstripUnderscore k ++ "=\x22" ++ strNode v ++ "\x22"
  | (k, v) :: rest =>
      lstripUnderscore k ++ "=\x22" ++ strNode v ++ "\x22 " ++ reprAttrs rest

/-- Python `str` of a node: scalars stringify, elements fall back to their
repr. -/
def strNode : Node → String
  | .lit v => pyStr v
  | n => reprNode n

end

/-- The reserved context key under which a rendering-exception handler may
be supplied. -/
def EXCEPTION_HANDLER_NAME : String := "_htmlgenerator_exception_handler"

/-- An item yielded by a render generator: a piece of text (with its
SafeString flag) or, under `stringify=False`, a raw resolved value. -/
inductive Out where
  | txt (s : String) (safe : Bool)
  | raw (v : RVal)

/-- The text of an output item, as consumed by `str.join`. -/
def Out.text : Out → String
  | .txt s _ => s
  | .raw v => pyStr v

/-- A recorded invocation of the exception handler: the handler object
found in the context under `EXCEPTION_HANDLER_NAME` (`Option.none` when the
default stderr-logging handler was used) and the diagnostic message it was
called with. -/
structure Ev where
  handler : Option RVal
  message : String

/-- A raised exception together with the chain of nested render-tree
objects whose render or resolve frames lie between the catching boundary
and the raise site, outermost first; the diagnostic formatter of
`_handle_exception` recovers exactly this chain from the traceback. -/
abbrev Err := Exc × List Node

/-- The diagnostic message built by `base._handle_exception`: each object
in the chain on its own line, indented two spaces more than the previous
one, followed by the exception text. -/
def diagnostic (chain : List Node) (e : Exc) : String :=
  let lines := chain.enum.map
    (fun p => String.mk (List.replicate (2 * p.1) ' ') ++ strNode p.2)
  String.intercalate "\n"
    (lines ++ [String.mk (List.replicate (2 * chain.length) ' ') ++ e.text])

/-- The visible inline error marker yielded by `base._handle_exception`:
a styled `pre` block naming the escaped exception plus a script logging
it. -/
def excMarker (e : Exc) : String :=
  "<pre style=\x22border: solid 1px red; color: red; padding: 1rem; "
    ++ "background-color: #ffdddd\x22>"
    ++ "    <code>~~~ Exception: " ++ htmlEscape e.text ++ " ~~~</code>"
    ++ "</pre>"
    ++ "<script>console.log(\x22Error: " ++ htmlEscape e.text ++ "\x22)</script>"

/-- The catch clause of `base._render_element` routed through
`_handle_exception`: look the pluggable handler up in the context (falling
back to the default), record its invocation with the diagnostic message,
and yield the inline error marker (a plain, not safe-marked string). -/
def handleException (err : Err) (context : Ctx) : List Out × List Ev :=
  ([Out.txt (excMarker err.1) false],
   [⟨alookup context EXCEPTION_HANDLER_NAME, diagnostic err.2 err.1⟩])

/-- `safestring.conditional_escape` on a resolved value: a safe string
passes through via its `__html__`, anything else is stringified and
escaped; the result is always safe. -/
def condEscape (v : RVal) : Out :=
  match v with
  | .str s true => Out.txt s true
  | v => Out.txt (htmlEscape (pyStr v)) true

/-- The text produced by `conditional_escape`, where only the text is
needed. -/
def cescapeText (v : RVal) : String :=
  match v with
  | .str s true => s
  | v => htmlEscape (pyStr v)

/-- The leaf branch of `base._render_element`: a resolved non-element value
yields nothing when it is None or when a fragment is requested, and
otherwise yields its escaped text (or, with `stringify=False`, the raw
value). -/
def leafYield (v : RVal) (stringify : Bool) (fragment : Option String) :
    List Out × List Ev :=
  match v with
  | RVal.none => ([], [])
  | v =>
      if fragment = Option.none then
        ([if stringify then condEscape v else Out.raw v], [])
      else ([], [])

/-- One step of `lazy.resolve_lazy` on a tree node: lazy values resolve
against the context (their resolved values are non-lazy in this model, so
the `while` loop of the source runs at most once), everything else is
returned unchanged.  A failing resolution carries the lazy object as the
innermost chain entry. -/
def resolveLazyNode (n : Node) (context : Ctx) : Except Err Node :=
  match n with
  | .ctxValue p =>
      (match resolve_lookup context p with
       | Except.ok v => Except.ok (Node.lit v)
       | Except.error e => Except.error (e, [Node.ctxValue p]))
  | .ctxFunc oid res =>
      (match res with
       | Except.ok v => Except.ok (Node.lit v)
       | Except.error e => Except.error (e, [Node.ctxFunc oid res]))
  | n => Except.ok n

/-- Truthiness of a resolved condition node: scalars follow Python
truthiness, elements are Python lists and are truthy when non-empty. -/
def nodeTruthy : Node → Bool
  | .lit v => v.truthy
  | n => !n.childList.isEmpty

/-- `resolve_lazy(self.condition, context)` followed by the `if` test of
`If.render`. -/
def resolveCondition (cond : Node) (context : Ctx) : Except Err Bool :=
  (resolveLazyNode cond context).map nodeTruthy

/-- The items obtained by iterating the resolved iterator value of an
`Iterator` element: lists iterate their items, strings iterate their
characters (as plain one-character strings), dicts iterate their keys,
anything else raises TypeError.  An `Iterator` whose iterator resolves to a
`BaseElement` is outside the modelled universe (its items would be tree
nodes stored into the context, which the model restricts to resolved
values). -/
def iterItems (n : Node) : Except Exc (List RVal) :=
  match n with
  | .lit (RVal.list xs) => Except.ok xs
  | .lit (RVal.str s _) =>
      Except.ok (s.data.map (fun c => RVal.str (String.singleton c) false))
  | .lit (RVal.dict xs) => Except.ok (xs.map (fun p => RVal.str p.1 false))
  | _ => Except.error (Exc.typeError "object is not iterable")

/-- A parsed piece of a format string, as yielded by Python
`string.Formatter.parse`: a literal run or a replacement field with its
name, format spec and conversion text. -/
inductive Seg where
  | lit (s : String)
  | field (name : String) (spec : String) (conv : Option String)

/-- Splits a character list at the first occurrence of a separator,
returning the prefix and, when the separator occurs, the rest. -/
def splitFirst (cs : List Char) (sep : Char) :
    List Char × Option (List Char) :=
  match cs with
  | [] => ([], Option.none)
  | c :: rest =>
      if c = sep then ([], Option.some rest)
      else
        let r := splitFirst rest sep
        (c :: r.1, r.2)

/-- Builds a replacement-field segment from the characters between the
braces: the format spec follows the first colon, the conversion follows an
exclamation mark before that colon. -/
def mkField (cs : List Char) : Seg :=
  let colonSplit := splitFirst cs ':'
  let spec := match colonSplit.2 with
    | Option.none => ""
    | Option.some rest => String.mk rest
  let bangSplit := splitFirst colonSplit.1 '!'
  let nm := String.mk bangSplit.1
  match bangSplit.2 with
  | Option.none => Seg.field nm spec Option.none
  | Option.some conv => Seg.field nm spec (Option.some (String.mk conv))

/-- Flushes an accumulated literal run (characters held in reverse). -/
def flushLit (acc : List Char) : List Seg :=
  if acc.isEmpty then [] else [Seg.lit (String.mk acc.reverse)]

mutual

/-- The literal-scanning state of the format-string parser: doubled braces
are escapes, a lone closing brace is an error, an opening brace starts a
replacement field. -/
def parseLit : List Char → List Char → Except Exc (List Seg)
  | [], acc => Except.ok (flushLit acc)
  | c :: rest, acc =>
    if c = '\x7b' then
      match rest with
      | c2 :: rest2 =>
          if c2 = '\x7b' then parseLit rest2 (c :: acc)
          else parseField (c2 :: rest2) [] acc
      | [] =>
          Except.error
            (Exc.valueError "Single \x27\x7b\x27 encountered in format string")
    else if c = '\x7d' then
      -- a lone closing brace outside a field is rejected
      match rest with
      | c2 :: rest2 =>
          if c2 = '\x7d' then parseLit rest2 (c :: acc)
          else
            Except.error
              (Exc.valueError "Single \x27\x7d\x27 encountered in format string")
      | [] =>
          Except.error
            (Exc.valueError "Single \x27\x7d\x27 encountered in format string")
    else parseLit rest (c :: acc)
termination_by cs _ => cs.length

/-- The field-scanning state of the parser: collects a replacement field up
to its closing brace.  Braces nested inside a field (used by nested format
specs) are outside the modelled universe. -/
def parseField : List Char → List Char → List Char → Except Exc (List Seg)
  | [], _, _ =>
      Except.error
        (Exc.valueError "expected \x27\x7d\x27 before end of string")
  | c :: rest, facc, lacc =>
    if c = '\x7d' then
      match parseLit rest [] with
      | Except.ok segs =>
          Except.ok (flushLit lacc ++ [mkField facc.reverse] ++ segs)
      | Except.error e => Except.error e
    else if c = '\x7b' then
      Except.error (Exc.valueError "unexpected brace in field name")
    else parseField rest (c :: facc) lacc
termination_by cs _ _ => cs.length

end

/-- `string.Formatter.parse` over a whole format string. -/
def parseFormat (fmt : String) : Except Exc (List Seg) :=
  parseLit fmt.data []

/-- Whether a field name selects a positional argument (all digits). -/
def isDigits (s : String) : Bool :=
  !s.data.isEmpty && s.data.all Char.isDigit

/-- The numeric value of an all-digits field name. -/
def digitsToNat (s : String) : Nat :=
  s.data.foldl (fun a c => a * 10 + c.toNat - 48) 0

/-- The TypeError produced by calling `HTMLElement.render` (whose
signature in this source is `render(self, context)`) with the `stringify`
and `fragment` keyword arguments that `_render_element` and the
module-level `render` pass. -/
def RENDER_SIG_ERROR : Exc :=
  Exc.typeError "render() got an unexpected keyword argument \x27stringify\x27"

mutual

/-- `base._render_element(element, context, stringify, fragment)`: resolves
lazy chains, dispatches elements to their `render` method, yields non-None
leaf values when no fragment is requested, and converts any exception
raised inside the `try` into a handler invocation plus an inline error
marker. -/
def render_element (element : Node) (context : Ctx) (stringify : Bool)
    (fragment : Option String) : List Out × List Ev :=
  match element with
  | .lit v => leafYield v stringify fragment
  | .ctxValue p =>
      (match resolve_lookup context p with
       | Except.error e => handleException (e, [Node.ctxValue p]) context
       | Except.ok v => leafYield v stringify fragment)
  | .ctxFunc oid res =>
      (match res with
       | Except.error e => handleException (e, [Node.ctxFunc oid res]) context
       | Except.ok v => leafYield v stringify fragment)
  | el =>
      (match renderNode el context stringify fragment with
       | Except.ok r => r
       | Except.error err => handleException err context)

termination_by (sizeOf element, 4, 0)

/-- `BaseElement.render_children`: renders each child through
`_render_element`, concatenating yields and handler events.  It can never
raise, because every child is rendered inside the catching boundary. -/
def render_children (children : List Node) (context : Ctx) (stringify : Bool)
    (fragment : Option String) : List Out × List Ev :=
  match children with
  | [] => ([], [])
  | c :: rest =>
      let r := render_element c context stringify fragment
      let r2 := render_children rest context stringify fragment
      (r.1 ++ r2.1, r.2 ++ r2.2)

termination_by (sizeOf children, 0, 0)

/-- The per-iteration loop of `Iterator.render`: each item is bound to the
loop variable and its zero-based index to the companion `_index` key in a
copy of the context, and the children are rendered against that derived
context. -/
def renderIterations (items : List RVal) (i : Nat) (loopvar : String)
    (cs : List Node) (context : Ctx) (stringify : Bool)
    (fragment : Option String) : List Out × List Ev :=
  match items with
  | [] => ([], [])
  | v :: rest =>
      let ctx2 := aset (aset context loopvar v) (loopvar ++ "_index")
        (RVal.int (Int.ofNat i))
      let r := render_children cs ctx2 stringify fragment
      let r2 := renderIterations rest (i + 1) loopvar cs context stringify
        fragment
      (r.1 ++ r2.1, r.2 ++ r2.2)

termination_by (sizeOf cs, 1, items.length)

/-- The `render` method of an element, as invoked with the keyword
arguments `stringify=...` and `fragment=...` (the call sites
`_render_element` and the module-level `render` both use that form).  In
this source `HTMLElement.render` accepts only `(self, context)`, so that
call raises a TypeError at once.  Errors carry the chain of objects whose
frames the traceback would show between the catching boundary and the raise
site. -/
def renderNode (element : Node) (context : Ctx) (stringify : Bool)
    (fragment : Option String) : Except Err (List Out × List Ev) :=
  match element with
  | .base cs =>
      Except.ok (render_children cs context stringify fragment)
  | .fragment name cs =>
      -- Fragment.render: render children (with fragment reset to None)
      -- when no fragment is requested or the name matches, else nothing
      if fragment = Option.none ∨ fragment = Option.some name then
        Except.ok (render_children cs context stringify Option.none)
      else
        Except.ok ([], [])
  | .withContext adds cs =>
      Except.ok (render_children cs (amerge context adds) stringify fragment)
  | .ifElem cond cs =>
      (match resolveCondition cond context with
       | Except.error (e, chain) =>
           Except.error (e, Node.ifElem cond cs :: chain)
       | Except.ok b =>
         match b, cs with
         | true, [] =>
             Except.error (Exc.indexError "list index out of range",
               [Node.ifElem cond cs])
         | true, t :: _ =>
             Except.ok (render_element t context stringify fragment)
         | false, _ :: f :: _ =>
             Except.ok (render_element f context stringify fragment)
         | false, _ => Except.ok ([], []))
  | .iterator it loopvar cs =>
      (match resolveLazyNode it context with
       | Except.error (e, chain) =>
           Except.error (e, Node.iterator it loopvar cs :: chain)
       | Except.ok itv =>
         match iterItems itv with
         | Except.error e =>
             Except.error (e, [Node.iterator it loopvar cs])
         | Except.ok items =>
             Except.ok (renderIterations items 0 loopvar cs context stringify
               fragment))
  | .formatString fmt fmtSafe args kwargs =>
      (match formatEval fmt fmtSafe args kwargs context with
       | Except.error (e, chain) =>
           Except.error (e, Node.formatString fmt fmtSafe args kwargs :: chain)
       | Except.ok (s, evs) =>
           -- the formatted result is a safe string handed to
           -- _render_element with stringify=True: it passes
           -- conditional_escape unchanged, and yields nothing when a
           -- fragment is requested
           if fragment = Option.none then Except.ok ([Out.txt s true], evs)
           else Except.ok ([], evs))
  | .html _ _ _ _ => Except.error (RENDER_SIG_ERROR, [])
  | .lit _ | .ctxValue _ | .ctxFunc _ _ =>
      Except.error (Exc.attributeError "object has no attribute render", [])

termination_by (sizeOf element, 2, 0)

/-- `htmltags.flatattrs(attributes, context)`: converts an attribute dict
to the attribute string (the joined entries plus the handler events of any
nested renders). -/
def flatattrs (attributes : List (String × Node)) (context : Ctx) :
    Except Err (String × List Ev) :=
  match flatattrsGo attributes context with
  | Except.error err => Except.error err
  | Except.ok (attlist, evs) =>
      Except.ok (String.intercalate " " attlist, evs)

termination_by (sizeOf attributes, 1, 0)

/-- The entry loop of `flatattrs`: resolve the value; compute the
per-entry attribute value (None meaning the attribute is skipped); strip
one leading underscore of the key and turn the remaining underscores into
dashes; emit a bare key for boolean True on keys other than `value`, drop
boolean False, and otherwise emit `key="str(value)"` without any
escaping. -/
def flatattrsGo (attributes : List (String × Node)) (context : Ctx) :
    Except Err (List String × List Ev) :=
  match attributes with
  | [] => Except.ok ([], [])
  | (key, value0) :: rest =>
    match attrValueOf value0 context with
    | Except.error err => Except.error err
    | Except.ok (valOpt, evs) =>
      match flatattrsGo rest context with
      | Except.error err => Except.error err
      | Except.ok (attlist, evs2) =>
        match valOpt with
        | Option.none => Except.ok (attlist, evs ++ evs2)
        | Option.some v =>
          match key.data with
          | [] => Except.error (Exc.indexError "string index out of range", [])
          | c :: cs =>
            let key1 : List Char := if c = '_' then cs else c :: cs
            let key2 := String.mk
              (key1.map (fun ch => if ch = '_' then '-' else ch))
            let entry :=
              match v with
              | RVal.bool b =>
                  if key2 ≠ "value" then
                    if b then [key2] else []
                  else [key2 ++ "=\x22" ++ pyStr v ++ "\x22"]
              | v => [key2 ++ "=\x22" ++ pyStr v ++ "\x22"]
            Except.ok (entry ++ attlist, evs ++ evs2)
termination_by (sizeOf attributes, 0, 0)

/-- The value computation for one `flatattrs` entry: `resolve_lazy`, then
the `If` branch (render with `stringify=False` and prefer a raw boolean
result, else re-render as text with empty output meaning the attribute is
absent), then the general `BaseElement` branch (positional
`value.render(context)`, empty output meaning absent), and finally the
`if value is None: continue` test. -/
def attrValueOf (value0 : Node) (context : Ctx) :
    Except Err (Option RVal × List Ev) :=
  let noneCheck := fun (v : RVal) =>
    match v with
    | RVal.none => Option.none
    | v => Option.some v
  match value0 with
  | .lit v => Except.ok (noneCheck v, [])
  | .ctxValue p =>
      (match resolve_lookup context p with
       | Except.error e => Except.error (e, [Node.ctxValue p])
       | Except.ok v => Except.ok (noneCheck v, []))
  | .ctxFunc oid res =>
      (match res with
       | Except.error e => Except.error (e, [Node.ctxFunc oid res])
       | Except.ok v => Except.ok (noneCheck v, []))
  | .ifElem cond cs =>
      (match renderNode (Node.ifElem cond cs) context false Option.none with
       | Except.error err => Except.error err
       | Except.ok (outs, evs) =>
         match outs with
         | [Out.raw (RVal.bool b)] =>
             Except.ok (Option.some (RVal.bool b), evs)
         | _ =>
           match renderNode (Node.ifElem cond cs) context true Option.none with
           | Except.error err => Except.error err
           | Except.ok (outs2, evs2) =>
               let joined := String.join (outs2.map Out.text)
               Except.ok
                 ((if outs2.isEmpty then Option.none
                   else Option.some (RVal.str joined false)),
                  evs ++ evs2))
  | el =>
      (match renderValueDirect el context with
       | Except.error err => Except.error err
       | Except.ok (outs, evs) =>
           let joined := String.join (outs.map Out.text)
           Except.ok
             ((if outs.isEmpty then Option.none
               else Option.some (RVal.str joined false)),
              evs))
termination_by (sizeOf value0, 5, 0)

/-- A positional `value.render(context)` call, as `flatattrs` performs on
element-valued attributes.  For an `HTMLElement` this runs the real tag
rendering (open tag with flattened attributes, children, close tag; a
`VoidElement` yields its single self-closing tag), because the positional
call matches the `render(self, context)` signature; every other element
renders with the default `stringify=True, fragment=None`. -/
def renderValueDirect (value1 : Node) (context : Ctx) :
    Except Err (List Out × List Ev) :=
  match value1 with
  | .html tag voidTag attrs cs =>
      (match flatattrs attrs context with
       | Except.error (e, chain) =>
           Except.error (e, Node.html tag voidTag attrs cs :: chain)
       | Except.ok (astr, evs) =>
         let attrStr := if astr = "" then astr else " " ++ astr
         if voidTag then
           Except.ok ([Out.txt ("<" ++ tag ++ " " ++ attrStr ++ " />") false],
             evs)
         else
           let r := render_children cs context true Option.none
           Except.ok
             ([Out.txt ("<" ++ tag ++ attrStr ++ ">") false] ++ r.1
                ++ [Out.txt ("</" ++ tag ++ ">") false],
              evs ++ r.2))
  | v => renderNode v context true Option.none

termination_by (sizeOf value1, 3, 0)

/-- The module-level `base.render(root, basecontext, fragment)`: calls
`root.render(basecontext, stringify=True, fragment=fragment)` and joins
the yielded strings.  An `HTMLElement` root raises the signature TypeError
out of the call; a leaf or lazy root has no usable `render` attribute. -/
def renderTopModel (root : Node) (context : Ctx) (fragment : Option String) :
    Except Err (String × List Ev) :=
  match root with
  | .html _ _ _ _ => Except.error (RENDER_SIG_ERROR, [])
  | .lit _ =>
      Except.error (Exc.attributeError "object has no attribute render", [])
  | .ctxValue _ | .ctxFunc _ _ =>
      Except.error (Exc.typeError "object is not iterable", [])
  | el =>
      (match renderNode el context true fragment with
       | Except.error err => Except.error err
       | Except.ok (outs, evs) =>
           Except.ok (String.join (outs.map Out.text), evs))

termination_by (sizeOf root, 3, 0)

/-- The `extract` helper of `ContextFormatter.get_value`: a `BaseElement`
argument renders to a safe string, anything else is lazily resolved with a
None result becoming the empty (plain) string. -/
def extract (value : Node) (context : Ctx) : Except Err (RVal × List Ev) :=
  match value with
  | .lit v =>
      Except.ok ((match v with
        | RVal.none => RVal.str "" false
        | v => v), [])
  | .ctxValue p =>
      (match resolveLazyNode (Node.ctxValue p) context with
       | Except.error err => Except.error err
       | Except.ok (Node.lit v) =>
           Except.ok ((match v with
             | RVal.none => RVal.str "" false
             | v => v), [])
       | Except.ok _ => Except.ok (RVal.str "" false, []))
  | .ctxFunc oid res =>
      (match resolveLazyNode (Node.ctxFunc oid res) context with
       | Except.error err => Except.error err
       | Except.ok (Node.lit v) =>
           Except.ok ((match v with
             | RVal.none => RVal.str "" false
             | v => v), [])
       | Except.ok _ => Except.ok (RVal.str "" false, []))
  | el =>
      (match renderTopModel el context Option.none with
       | Except.error err => Except.error err
       | Except.ok (s, evs) => Except.ok (RVal.str s true, evs))

termination_by (sizeOf value, 4, 0)

/-- Applies `extract` to every positional argument, as the list
comprehension in `ContextFormatter.get_value` does on each call. -/
def mapExtract (args : List Node) (context : Ctx) :
    Except Err (List RVal × List Ev) :=
  match args with
  | [] => Except.ok ([], [])
  | a :: rest =>
      (match extract a context with
       | Except.error err => Except.error err
       | Except.ok (v, evs) =>
         match mapExtract rest context with
         | Except.error err => Except.error err
         | Except.ok (vs, evs2) => Except.ok (v :: vs, evs ++ evs2))

termination_by (sizeOf args, 5, 0)

/-- Applies `extract` to every keyword argument value. -/
def mapExtractKw (kwargs : List (String × Node)) (context : Ctx) :
    Except Err (List (String × RVal) × List Ev) :=
  match kwargs with
  | [] => Except.ok ([], [])
  | (k, a) :: rest =>
      (match extract a context with
       | Except.error err => Except.error err
       | Except.ok (v, evs) =>
         match mapExtractKw rest context with
         | Except.error err => Except.error err
         | Except.ok (vs, evs2) => Except.ok ((k, v) :: vs, evs ++ evs2))

termination_by (sizeOf kwargs, 5, 0)

/-- The segment loop of `string.Formatter._vformat` with the overrides of
`ContextFormatter`: literal segments were already conditionally escaped by
`parse` (kept raw exactly when the format string is safe), each field
resolves through `get_value` (extraction of every argument, selection by
auto-numbered or explicit position or by keyword, then
`conditional_escape`), and field conversions or non-empty format specs are
outside the modelled universe.  The state `autoSt` is the auto-numbering
counter, `Option.none` once manual numbering is used. -/
def vformatSegs (segs : List Seg) (autoSt : Option Nat) (fmtSafe : Bool)
    (args : List Node) (kwargs : List (String × Node)) (context : Ctx) :
    Except Err (List String × List Ev) :=
  match segs with
  | [] => Except.ok ([], [])
  | Seg.lit s :: rest =>
      (match vformatSegs rest autoSt fmtSafe args kwargs context with
       | Except.error err => Except.error err
       | Except.ok (ps, evs) =>
           Except.ok ((if fmtSafe then s else htmlEscape s) :: ps, evs))
  | Seg.field name spec conv :: rest =>
      let nameSt : Except Err (String × Option Nat) :=
        if name = "" then
          match autoSt with
          | Option.none =>
              Except.error (Exc.valueError
                ("cannot switch from manual field specification to "
                  ++ "automatic field numbering"), [])
          | Option.some k => Except.ok (toString k, Option.some (k + 1))
        else if isDigits name then
          match autoSt with
          | Option.some 0 => Except.ok (name, Option.none)
          | Option.some _ =>
              Except.error (Exc.valueError
                ("cannot switch from manual field specification to "
                  ++ "automatic field numbering"), [])
          | Option.none => Except.ok (name, Option.none)
        else
          Except.ok (name, autoSt)
      match nameSt with
      | Except.error err => Except.error err
      | Except.ok (name2, autoSt2) =>
        match mapExtract args context with
        | Except.error err => Except.error err
        | Except.ok (eargs, evA) =>
          match mapExtractKw kwargs context with
          | Except.error err => Except.error err
          | Except.ok (ekwds, evK) =>
            let sel : Except Err RVal :=
              if isDigits name2 then
                match eargs.get? (digitsToNat name2) with
                | Option.some v => Except.ok v
                | Option.none =>
                    Except.error (Exc.indexError "tuple index out of range", [])
              else
                match alookup ekwds name2 with
                | Option.some v => Except.ok v
                | Option.none => Except.error (Exc.keyError name2, [])
            match sel with
            | Except.error err => Except.error err
            | Except.ok v =>
              match conv with
              | Option.some _ =>
                  Except.error (Exc.valueError
                    "conversion specifier outside the modelled universe", [])
              | Option.none =>
                if spec ≠ "" then
                  Except.error (Exc.valueError
                    "format specifier outside the modelled universe", [])
                else
                  match vformatSegs rest autoSt2 fmtSafe args kwargs context with
                  | Except.error err => Except.error err
                  | Except.ok (ps, evs) =>
                      Except.ok (cescapeText v :: ps, evA ++ evK ++ evs)

termination_by (sizeOf args + sizeOf kwargs, 0, segs.length)
decreasing_by
  all_goals simp_wf
  all_goals
    first
      | (apply Prod.Lex.right; apply Prod.Lex.right; simp_arith)
      | (apply Prod.Lex.left
         have hk : 0 < sizeOf kwargs := by cases kwargs <;> simp_arith
         have ha : 0 < sizeOf args := by cases args <;> simp_arith
         omega)

/-- `ContextFormatter(context).format(fmt, *args, **kwargs)` as invoked by
`FormatString.render`: parse, run the segment loop with auto-numbering
starting at zero, join the pieces; the result is marked safe. -/
def formatEval (fmt : String) (fmtSafe : Bool) (args : List Node)
    (kwargs : List (String × Node)) (context : Ctx) :
    Except Err (String × List Ev) :=
  match parseFormat fmt with
  | Except.error e => Except.error (e, [])
  | Except.ok segs =>
    match vformatSegs segs (Option.some 0) fmtSafe args kwargs context with
    | Except.error err => Except.error err
    | Except.ok (ps, evs) => Except.ok (String.join ps, evs)
termination_by (sizeOf args + sizeOf kwargs, 1, 0)

end

mutual

/-- Python `==` on resolved values.  Dict equality is modelled pairwise in
insertion order, which agrees with Python on the duplicate-free,
identically-ordered dicts appearing in this development. -/
def pyEqR (v w : RVal) : Bool :=
  match v, w with
  | .none, .none => true
  | .bool b, .bool c => b = c
  | .bool b, .int n => (if b then (1 : Int) else 0) = n
  | .int n, .bool b => n = (if b then (1 : Int) else 0)
  | .int n, .int m => n = m
  | .str s _, .str t _ => s = t
  | .list xs, .list ys => pyEqRList xs ys
  | .dict xs, .dict ys => pyEqRPairs xs ys
  | .obj o _, .obj o2 _ => o = o2
  | .func0 o _, .func0 o2 _ => o = o2
  | .funcN o, .funcN o2 => o = o2
  | _, _ => false
termination_by (sizeOf v, 1)

/-- Pairwise Python `==` of two value lists. -/
def pyEqRList (xs ys : List RVal) : Bool :=
  match xs, ys with
  | [], [] => true
  | x :: xr, y :: yr => pyEqR x y && pyEqRList xr yr
  | _, _ => false
termination_by (sizeOf xs, 0)

/-- Pairwise Python `==` of two dict item lists. -/
def pyEqRPairs (xs ys : List (String × RVal)) : Bool :=
  match xs, ys with
  | [], [] => true
  | (k, x) :: xr, (k2, y) :: yr => k = k2 && pyEqR x y && pyEqRPairs xr yr
  | _, _ => false
termination_by (sizeOf xs, 0)

end

mutual

/-- Python `==` on tree nodes, as used by `list.remove` inside
`BaseElement.delete`.  Every `BaseElement` subclass is a list subclass and
compares as a list: children pairwise, ignoring tag, attributes, condition
and all other non-list state.  Scalars compare by value (with the usual
bool/int cross equality); lazy objects define no `__eq__` and compare by
identity, modelled through their syntactic content, which agrees with
Python whenever object ids are kept distinct, as in the theorems below. -/
def pyEqNode (a b : Node) : Bool :=
  match a, b with
  | .lit v, .lit w => pyEqR v w
  | .lit _, _ => false
  | _, .lit _ => false
  | .ctxValue p, .ctxValue q => p = q
  | .ctxValue _, _ => false
  | _, .ctxValue _ => false
  | .ctxFunc o _, .ctxFunc o2 _ => o = o2
  | .ctxFunc _ _, _ => false
  | _, .ctxFunc _ _ => false
  | .base cs, b => pyEqList cs b.childList
  | .ifElem _ cs, b => pyEqList cs b.childList
  | .iterator _ _ cs, b => pyEqList cs b.childList
  | .withContext _ cs, b => pyEqList cs b.childList
  | .fragment _ cs, b => pyEqList cs b.childList
  | .formatString _ _ _ _, b => pyEqList [] b.childList
  | .html _ _ _ cs, b => pyEqList cs b.childList
termination_by (sizeOf a, 1)

/-- Pairwise Python `==` of two child lists. -/
def pyEqList (xs ys : List Node) : Bool :=
  match xs, ys with
  | [], [] => true
  | x :: xr, y :: yr => pyEqNode x y && pyEqList xr yr
  | _, _ => false
termination_by (sizeOf xs, 0)

end

/-- The type of tree predicates, `filter_func(element, ancestors)`. -/
abbrev Pred := Node → List Node → Bool

mutual

/-- `base.treewalk` without an `apply` function, restricted to the yielded
matches: iterate the container; each `BaseElement` child is tested (and
yielded on a match), then for an `HTMLElement` the attribute values are
walked as the children of a fresh wrapper `BaseElement`, then the child
itself is walked; non-elements are skipped. -/
def treewalkF (p : Pred) (children : List Node) (ancestors : List Node) :
    List Node :=
  match children with
  | [] => []
  | e :: rest => walkOne p e ancestors ++ treewalkF p rest ancestors
termination_by (sizeOf children, 0)

/-- The per-child step of `treewalk`: match test, attribute walk for
markup elements, then recursion into the child. -/
def walkOne (p : Pred) (e : Node) (ancestors : List Node) : List Node :=
  match e with
  | .lit _ | .ctxValue _ | .ctxFunc _ _ => []
  | .html tag vt attrs cs =>
      (if p (Node.html tag vt attrs cs) ancestors
        then [Node.html tag vt attrs cs] else [])
      ++ walkAttrsF p attrs (ancestors ++ [Node.html tag vt attrs cs])
      ++ treewalkF p cs (ancestors ++ [Node.html tag vt attrs cs])
  | .base cs =>
      (if p (Node.base cs) ancestors then [Node.base cs] else [])
      ++ treewalkF p cs (ancestors ++ [Node.base cs])
  | .ifElem c cs =>
      (if p (Node.ifElem c cs) ancestors then [Node.ifElem c cs] else [])
      ++ treewalkF p cs (ancestors ++ [Node.ifElem c cs])
  | .iterator a b cs =>
      (if p (Node.iterator a b cs) ancestors then [Node.iterator a b cs] else [])
      ++ treewalkF p cs (ancestors ++ [Node.iterator a b cs])
  | .withContext a cs =>
      (if p (Node.withContext a cs) ancestors then [Node.withContext a cs] else [])
      ++ treewalkF p cs (ancestors ++ [Node.withContext a cs])
  | .fragment a cs =>
      (if p (Node.fragment a cs) ancestors then [Node.fragment a cs] else [])
      ++ treewalkF p cs (ancestors ++ [Node.fragment a cs])
  | .formatString a b c d =>
      (if p (Node.formatString a b c d) ancestors
        then [Node.formatString a b c d] else [])
termination_by (sizeOf e, 1)

/-- The attribute-value walk of `treewalk`: the values of the attribute
dict are walked as the children of a temporary wrapper container. -/
def walkAttrsF (p : Pred) (attrs : List (String × Node))
    (ancestors : List Node) : List Node :=
  match attrs with
  | [] => []
  | (_, v) :: rest => walkOne p v ancestors ++ walkAttrsF p rest ancestors
termination_by (sizeOf attrs, 0)

end

/-- `BaseElement.filter(filter_func)`: `treewalk(BaseElement(self), (),
filter_func)` — the element itself is wrapped in a fresh container, so the
walk starts at the element itself with an empty ancestor tuple. -/
def filterModel (self : Node) (p : Pred) : List Node :=
  treewalkF p [self] []

/-- Removes the first element comparing Python-equal to `target`, the
effect of `container.remove(target)`.  The unreachable empty case (Python
would raise ValueError) returns the empty list; it cannot occur in
`delete`, where the removed element is itself a member of the container. -/
def removeFirst (xs : List Node) (target : Node) : List Node :=
  match xs with
  | [] => []
  | y :: rest => if pyEqNode y target then rest else y :: removeFirst rest target

/-- Applies the deferred `delfunc` calls of one container level:
`container.remove(e)` for each matched element, in match order, each
remove scanning the current state of the container for the first
Python-equal entry. -/
def applyDelGo (ms : List (Bool × Node)) (container : List Node) :
    List Node :=
  match ms with
  | [] => container
  | (m, e2) :: rest =>
      applyDelGo rest (if m then removeFirst container e2 else container)

mutual

/-- Phase one of `treewalk` with `apply=delfunc` on one container: for
each child of the container, whether it matched and its state after all
deletions inside its own subtree were applied (the deferred removes of
this container run only after the whole loop). -/
def delWalkList (p : Pred) (children : List Node) (ancestors : List Node) :
    List (Bool × Node) :=
  match children with
  | [] => []
  | e :: rest =>
      ((if e.isElement then p e ancestors else false), delNode p e ancestors)
        :: delWalkList p rest ancestors
termination_by (sizeOf children, 0)

/-- Deletions applied inside one node by the recursive `treewalk` calls:
matches among the node's children are removed from the child list (after
their own subtrees were processed), and for a markup element the attribute
values are walked through a temporary wrapper — removal of a matched
attribute value mutates only that wrapper and is lost, while deletions
deeper inside an attribute value persist. -/
def delNode (p : Pred) (e : Node) (ancestors : List Node) : Node :=
  match e with
  | .lit v => Node.lit v
  | .ctxValue q => Node.ctxValue q
  | .ctxFunc o r => Node.ctxFunc o r
  | .html tag vt attrs cs =>
      let here := Node.html tag vt attrs cs
      let attrs2 := delAttrs p attrs (ancestors ++ [here])
      let rs := delWalkList p cs (ancestors ++ [here])
      Node.html tag vt attrs2 (applyDelGo rs (rs.map Prod.snd))
  | .base cs =>
      let rs := delWalkList p cs (ancestors ++ [Node.base cs])
      Node.base (applyDelGo rs (rs.map Prod.snd))
  | .ifElem c cs =>
      let rs := delWalkList p cs (ancestors ++ [Node.ifElem c cs])
      Node.ifElem c (applyDelGo rs (rs.map Prod.snd))
  | .iterator a b cs =>
      let rs := delWalkList p cs (ancestors ++ [Node.iterator a b cs])
      Node.iterator a b (applyDelGo rs (rs.map Prod.snd))
  | .withContext a cs =>
      let rs := delWalkList p cs (ancestors ++ [Node.withContext a cs])
      Node.withContext a (applyDelGo rs (rs.map Prod.snd))
  | .fragment a cs =>
      let rs := delWalkList p cs (ancestors ++ [Node.fragment a cs])
      Node.fragment a (applyDelGo rs (rs.map Prod.snd))
  | .formatString a b c d => Node.formatString a b c d
termination_by (sizeOf e, 1)

/-- The attribute part of the deletion walk: each attribute value keeps
its key and has the deletions inside its own subtree applied; the
temporary wrapper containing the values is discarded. -/
def delAttrs (p : Pred) (attrs : List (String × Node))
    (ancestors : List Node) : List (String × Node) :=
  match attrs with
  | [] => []
  | (k, v) :: rest =>
      (k, delNode p v ancestors) :: delAttrs p rest ancestors
termination_by (sizeOf attrs, 0)

end

/-- `BaseElement.delete(filter_func)`: the tree after
`treewalk(BaseElement(self), (), filter_func, apply=delfunc)`.  The root
itself may be matched, but its removal targets only the temporary wrapper,
so the effect on the tree is exactly the deletions inside the root. -/
def deleteModel (self : Node) (p : Pred) : Node :=
  delNode p self []

/-- `container.pop(i)` followed by `container.insert(i, replacement)`
(the insert only when the replacement is not None), as `_replace` applies
at one recorded match index.  `pop` on an out-of-range index raises
IndexError, which is reachable in `_replace` when a None replacement
shifts later recorded indices past the end. -/
def popInsert (xs : List Node) (i : Nat) (repl : Option Node) :
    Except Exc (List Node) :=
  if i < xs.length then
    let removed := xs.take i ++ xs.drop (i + 1)
    Except.ok (match repl with
      | Option.none => removed
      | Option.some r => removed.take i ++ [r] ++ removed.drop i)
  else Except.error (Exc.indexError "pop index out of range")

/-- The deferred replacement loop at the end of `_replace.walk` on one
container: pop/insert at each recorded index in order; without `all` the
walk raises ReachFirstException right after the first replacement (the
boolean records that the exception is in flight). -/
def repPhase2 (idxs : List Nat) (container : List Node) (repl : Option Node)
    (all : Bool) : Except Exc (List Node × Bool) :=
  match idxs with
  | [] => Except.ok (container, false)
  | i :: rest =>
    match popInsert container i repl with
    | Except.error e => Except.error e
    | Except.ok c1 =>
        if all then repPhase2 rest c1 repl all
        else Except.ok (c1, true)

mutual

/-- One entry of the `_replace.walk` loop: non-elements are skipped;
an element is tested (its index recorded on a match), then for a markup
element the attribute values are walked (through a temporary wrapper),
then the element itself is walked.  The boolean results are the match flag
and whether a ReachFirstException is in flight, which aborts everything
above. -/
def repElemStep (p : Pred) (repl : Option Node) (all : Bool) (e : Node)
    (ancestors : List Node) : Except Exc (Node × Bool × Bool) :=
  match e with
  | .lit v => Except.ok (Node.lit v, false, false)
  | .ctxValue q => Except.ok (Node.ctxValue q, false, false)
  | .ctxFunc o r => Except.ok (Node.ctxFunc o r, false, false)
  | .html tag vt attrs cs =>
      let here := Node.html tag vt attrs cs
      let m := p here ancestors
      (match repAttrWalk p repl all attrs (ancestors ++ [here]) with
       | Except.error e2 => Except.error e2
       | Except.ok (attrs2, true) =>
           Except.ok (Node.html tag vt attrs2 cs, m, true)
       | Except.ok (attrs2, false) =>
         match repContainer p repl all cs (ancestors ++ [here]) with
         | Except.error e2 => Except.error e2
         | Except.ok (cs2, st) =>
             Except.ok (Node.html tag vt attrs2 cs2, m, st))
  | .base cs =>
      let m := p (Node.base cs) ancestors
      (match repContainer p repl all cs (ancestors ++ [Node.base cs]) with
       | Except.error e2 => Except.error e2
       | Except.ok (cs2, st) => Except.ok (Node.base cs2, m, st))
  | .ifElem c cs =>
      let m := p (Node.ifElem c cs) ancestors
      (match repContainer p repl all cs (ancestors ++ [Node.ifElem c cs]) with
       | Except.error e2 => Except.error e2
       | Except.ok (cs2, st) => Except.ok (Node.ifElem c cs2, m, st))
  | .iterator a b cs =>
      let m := p (Node.iterator a b cs) ancestors
      (match repContainer p repl all cs (ancestors ++ [Node.iterator a b cs]) with
       | Except.error e2 => Except.error e2
       | Except.ok (cs2, st) => Except.ok (Node.iterator a b cs2, m, st))
  | .withContext a cs =>
      let m := p (Node.withContext a cs) ancestors
      (match repContainer p repl all cs (ancestors ++ [Node.withContext a cs]) with
       | Except.error e2 => Except.error e2
       | Except.ok (cs2, st) => Except.ok (Node.withContext a cs2, m, st))
  | .fragment a cs =>
      let m := p (Node.fragment a cs) ancestors
      (match repContainer p repl all cs (ancestors ++ [Node.fragment a cs]) with
       | Except.error e2 => Except.error e2
       | Except.ok (cs2, st) => Except.ok (Node.fragment a cs2, m, st))
  | .formatString a b c d =>
      let m := p (Node.formatString a b c d) ancestors
      (match repContainer p repl all []
          (ancestors ++ [Node.formatString a b c d]) with
       | Except.error e2 => Except.error e2
       | Except.ok (_, st) => Except.ok (Node.formatString a b c d, m, st))
termination_by (sizeOf e, 2)

/-- `_replace.walk(element, ancestors)` on one container: the entry loop
(phase one, aborted by an in-flight ReachFirstException), then the
deferred pops of this level. -/
def repContainer (p : Pred) (repl : Option Node) (all : Bool)
    (children : List Node) (ancestors : List Node) :
    Except Exc (List Node × Bool) :=
  match repPhase1 p repl all children ancestors 0 with
  | Except.error e => Except.error e
  | Except.ok (uc, _, true) => Except.ok (uc, true)
  | Except.ok (uc, idxs, false) => repPhase2 idxs uc repl all
termination_by (sizeOf children, 1)

/-- The entry loop of `_replace.walk`: entries are processed in order,
each recording its match index and having its own subtree replaced first;
a raised ReachFirstException leaves the remaining entries unprocessed and
skips the deferred pops of this level. -/
def repPhase1 (p : Pred) (repl : Option Node) (all : Bool)
    (children : List Node) (ancestors : List Node) (i : Nat) :
    Except Exc (List Node × List Nat × Bool) :=
  match children with
  | [] => Except.ok ([], [], false)
  | e :: rest =>
    match repElemStep p repl all e ancestors with
    | Except.error e2 => Except.error e2
    | Except.ok (e1, _, true) => Except.ok (e1 :: rest, [], true)
    | Except.ok (e1, m, false) =>
      match repPhase1 p repl all rest ancestors (i + 1) with
      | Except.error e2 => Except.error e2
      | Except.ok (urest, idxs, st) =>
          Except.ok (e1 :: urest, (if m then [i] else []) ++ idxs, st)
termination_by (sizeOf children, 0)

/-- `walk(list(e.attributes.values()), ancestors + (e,))`: the attribute
values are walked as a temporary list, so replacements inside a value
subtree persist while the pops of the temporary wrapper are lost — but a
first-match stop (and any IndexError) still propagates. -/
def repAttrWalk (p : Pred) (repl : Option Node) (all : Bool)
    (attrs : List (String × Node)) (ancestors : List Node) :
    Except Exc (List (String × Node) × Bool) :=
  match repAttrPhase1 p repl all attrs ancestors 0 with
  | Except.error e => Except.error e
  | Except.ok (attrs2, _, true) => Except.ok (attrs2, true)
  | Except.ok (attrs2, idxs, false) =>
      match repPhase2 idxs (attrs2.map Prod.snd) repl all with
      | Except.error e => Except.error e
      | Except.ok (_, st) => Except.ok (attrs2, st)
termination_by (sizeOf attrs, 1)

/-- The entry loop of the attribute-value walk, keeping each value next to
its key. -/
def repAttrPhase1 (p : Pred) (repl : Option Node) (all : Bool)
    (attrs : List (String × Node)) (ancestors : List Node) (i : Nat) :
    Except Exc (List (String × Node) × List Nat × Bool) :=
  match attrs with
  | [] => Except.ok ([], [], false)
  | (k, v) :: rest =>
    match repElemStep p repl all v ancestors with
    | Except.error e2 => Except.error e2
    | Except.ok (v1, _, true) => Except.ok ((k, v1) :: rest, [], true)
    | Except.ok (v1, m, false) =>
      match repAttrPhase1 p repl all rest ancestors (i + 1) with
      | Except.error e2 => Except.error e2
      | Except.ok (urest, idxs, st) =>
          Except.ok ((k, v1) :: urest, (if m then [i] else []) ++ idxs, st)
termination_by (sizeOf attrs, 0)

end

/-- Rebuilds a node with a new child list. -/
def Node.withChildren : Node → List Node → Node
  | .base _, cs => Node.base cs
  | .ifElem c _, cs => Node.ifElem c cs
  | .iterator a b _, cs => Node.iterator a b cs
  | .withContext a _, cs => Node.withContext a cs
  | .fragment a _, cs => Node.fragment a cs
  | .html t v attrs _, cs => Node.html t v attrs cs
  | n, _ => n

/-- `BaseElement._replace(select_func, replacement, all=False)` (the body
of `replace`): `walk(self, (self,))` with a swallowed
ReachFirstException; an IndexError from a shifted pop index propagates to
the caller.  Only the contents of `self` change. -/
def replaceModel (self : Node) (p : Pred) (repl : Option Node)
    (all : Bool) : Except Exc Node :=
  match repContainer p repl all self.childList [self] with
  | Except.error e => Except.error e
  | Except.ok (cs2, _) => Except.ok (self.withChildren cs2)

/-! Theorems settling the claims. -/

/-- C1: the claim states that for every ordinary attribute entry (value
not None, not a boolean on a non-`value` key, not an element rendering to
emptiness) `flatattrs` emits `key="escaped(value)"`.  In this source the
f-string interpolates the raw value with no escaping, contradicting the
repository test `test_escaping` (which expects
`<div attr="&quot;"></div>`): on the attribute dict with the single entry
`attr` mapped to the plain one-character string `"` the emitted pair is
`attr="""`, not the `attr="&quot;"` that escaping would produce. -/
theorem C1_flatattrs_unescaped :
    flatattrs [("attr", Node.lit (RVal.str "\x22" false))] []
      = Except.ok ("attr=\x22\x22\x22", [])
    ∧ "attr=\x22\x22\x22" ≠ "attr=\x22" ++ htmlEscape "\x22" ++ "\x22" := by
  constructor
  · simp [flatattrs, flatattrsGo, attrValueOf, pyStr]
    rfl
  · decide

/-- The tree of the repository test `test_fragments`:
`DIV(Fragment("redpill", DIV("RED!")), Fragment("bluepill",
DIV("BLUE!")))`. -/
def fragmentTestTree : Node :=
  Node.html "div" false []
    [Node.fragment "redpill"
       [Node.html "div" false [] [Node.lit (RVal.str "RED!" false)]],
     Node.fragment "bluepill"
       [Node.html "div" false [] [Node.lit (RVal.str "BLUE!" false)]]]

/-- C4: the fragment-selection sentences of the claim assert that
rendering a tree with an unknown fragment name yields the empty string and
rendering without a fragment name yields all fragments' output.  On the
test tree of `test_fragments` the module-level `render` instead raises
TypeError at once, because it calls the root element's `render` with the
keyword arguments `stringify`/`fragment` that `HTMLElement.render` (whose
signature here is `render(self, context)`) does not accept; and even under
a non-markup root the matched fragment's markup children render to inline
error markers rather than their tags.  (The `Fragment.render` dispatch
itself — match or None renders children with the fragment reset to None,
mismatch renders nothing — does hold, but whole-tree rendering contradicts
the repository's own `test_fragments`.) -/
theorem C4_fragment_tree_raises :
    renderTopModel fragmentTestTree [] (Option.some "greenpill")
      = Except.error (RENDER_SIG_ERROR, [])
    ∧ renderTopModel fragmentTestTree [] Option.none
      = Except.error (RENDER_SIG_ERROR, [])
    ∧ renderTopModel
        (Node.base [Node.fragment "redpill"
          [Node.html "div" false [] [Node.lit (RVal.str "RED!" false)]]])
        [] (Option.some "redpill")
      = Except.ok (excMarker RENDER_SIG_ERROR,
          [⟨Option.none, diagnostic [] RENDER_SIG_ERROR⟩]) := by
  refine ⟨by simp [renderTopModel, fragmentTestTree], by simp [renderTopModel, fragmentTestTree], ?_⟩
  simp [renderTopModel, renderNode, render_children, render_element,
    handleException, alookup, String.join, Out.text]

/-- C5 counterexample: the claim states that `filter` traverses the
subtree excluding the element it is called on, and that the element itself
is never yielded.  `filter` wraps the element in a fresh container before
walking (`treewalk(BaseElement(self), (), filter_func)`), so the element
itself is walked and yielded: on a childless `BaseElement` with the
always-true predicate the claim demands the empty result, but the element
itself is yielded. -/
theorem C5_filter_includes_root :
    filterModel (Node.base []) (fun _ _ => true) = [Node.base []] := by
  simp [filterModel, treewalkF, walkOne]

/-- The attribute-free `DIV()` element. -/
def C6_div : Node := Node.html "div" false [] []

/-- The attribute-free `SPAN()` element. -/
def C6_span : Node := Node.html "span" false [] []

/-- A predicate matching exactly span-tagged elements. -/
def C6_pred : Pred := fun n _ =>
  match n with
  | Node.html t _ _ _ => t = "span"
  | _ => false

/-- C6: the claim states that `delete` removes all and only the matching
descendants, located by object identity.  `delfunc` calls
`container.remove(e)`, and `list.remove` removes the first element
comparing `==` to `e` — where `BaseElement` subclasses compare as plain
lists, ignoring tag and attributes.  On `BaseElement(DIV(), SPAN())` with
a predicate matching exactly the SPAN, the recorded match is the SPAN
(conjuncts two and three), yet the element removed is the DIV — the first
entry list-equal to the empty-children SPAN — so the non-matching DIV
disappears and the matching SPAN remains, contradicting the method's own
docstring ("removes each element for which a call to filter_func
evaluates to True"). -/
theorem C6_delete_removes_first_equal :
    deleteModel (Node.base [C6_div, C6_span]) C6_pred = Node.base [C6_span]
    ∧ C6_pred C6_div [Node.base [C6_div, C6_span]] = false
    ∧ C6_pred C6_span [Node.base [C6_div, C6_span]] = true := by
  refine ⟨?_, by simp [C6_pred, C6_div], by simp [C6_pred, C6_span]⟩
  simp [deleteModel, delNode, delWalkList, delAttrs, applyDelGo, removeFirst,
    pyEqNode, pyEqList, C6_pred, C6_div, C6_span, Node.isElement,
    Node.childList]

/-- `BaseElement(DIV(DIV()))`: a matching element whose own subtree also
contains a match. -/
def C7_tree : Node :=
  Node.base [Node.html "div" false [] [Node.html "div" false [] []]]

/-- A predicate matching exactly div-tagged elements. -/
def C7_pred : Pred := fun n _ =>
  match n with
  | Node.html t _ _ _ => t = "div"
  | _ => false

/-- C7 counterexample: the claim states that `replace` with `all=false`
replaces the first match in a fixed depth-first order, which on
`BaseElement(DIV(DIV()))` with a div-matching predicate is the outer DIV,
giving `BaseElement(SPAN())`.  The walk records the outer match but
descends first and applies the inner match inside the outer DIV's
children, raising ReachFirstException before the recorded outer match is
ever applied: the result is `BaseElement(DIV(SPAN()))`. -/
theorem C7_replace_inner_first :
    replaceModel C7_tree C7_pred (Option.some (Node.html "span" false [] []))
        false
      = Except.ok
          (Node.base [Node.html "div" false [] [Node.html "span" false [] []]])
    ∧ Node.base [Node.html "div" false [] [Node.html "span" false [] []]]
      ≠ Node.base [Node.html "span" false [] []] := by
  constructor
  · simp [replaceModel, repContainer, repPhase1, repElemStep, repAttrWalk,
      repAttrPhase1, repPhase2, popInsert, C7_pred, C7_tree, Node.childList,
      Node.withChildren]
  · simp

/-- C10: under a requested fragment, non-element leaf children contribute
nothing.  The leaf branch of `_render_element` yields only when
`element is not None and fragment is None`, so a plain value, a context
lookup that resolves, and a context function that resolves all yield
nothing when a fragment name is requested; and `Fragment.render` renders
its children with the fragment reset to None exactly when no fragment is
requested or the name matches, rendering nothing otherwise — so leaf
values are emitted only beneath a matching fragment. -/
theorem C10_leaf_fragment_suppression :
    (∀ (v : RVal) (context : Ctx) (stringify : Bool) (name : String),
        render_element (Node.lit v) context stringify (Option.some name)
          = ([], []))
    ∧ (∀ (p : String) (v : RVal) (context : Ctx) (stringify : Bool)
          (name : String),
        resolve_lookup context p = Except.ok v →
        render_element (Node.ctxValue p) context stringify (Option.some name)
          = ([], []))
    ∧ (∀ (oid : Nat) (v : RVal) (context : Ctx) (stringify : Bool)
          (name : String),
        render_element (Node.ctxFunc oid (Except.ok v)) context stringify
            (Option.some name)
          = ([], []))
    ∧ (∀ (name : String) (cs : List Node) (context : Ctx) (stringify : Bool)
          (frag : Option String),
        (frag = Option.none ∨ frag = Option.some name →
          renderNode (Node.fragment name cs) context stringify frag
            = Except.ok (render_children cs context stringify Option.none))
        ∧ (frag ≠ Option.none → frag ≠ Option.some name →
          renderNode (Node.fragment name cs) context stringify frag
            = Except.ok ([], []))) := by
  refine ⟨?_, ?_, ?_, ?_⟩
  · intro v context stringify name
    cases v <;> simp [render_element, leafYield]
  · intro p v context stringify name h
    cases v <;> simp [render_element, h, leafYield]
  · intro oid v context stringify name
    cases v <;> simp [render_element, leafYield]
  · intro name cs context stringify frag
    constructor
    · intro h
      simp [renderNode, h]
    · intro h1 h2
      simp [renderNode, h1, h2]

/-- C10 witness: a plain string leaf and a resolving context lookup under
the requested fragment `f` yield nothing, while the same lookup under a
matching fragment renders. -/
theorem C10_witness :
    render_element (Node.lit (RVal.str "x" false)) [] true (Option.some "f")
      = ([], [])
    ∧ render_element (Node.ctxValue "k") [("k", RVal.int 1)] true
        (Option.some "f")
      = ([], [])
    ∧ renderNode (Node.fragment "f" [Node.lit (RVal.str "x" false)]) [] true
        (Option.some "f")
      = Except.ok (render_children [Node.lit (RVal.str "x" false)] [] true
          Option.none) := by
  refine ⟨C10_leaf_fragment_suppression.1 _ _ _ _,
    C10_leaf_fragment_suppression.2.1 "k" (RVal.int 1) _ _ _ (by rfl),
    (C10_leaf_fragment_suppression.2.2.2 "f" _ _ _ _).1 (Or.inr rfl)⟩

mutual

/-- A value is well behaved when no property getter and no zero-argument
callable reachable inside it raises: the formalisation of a context whose
own logic does not raise. -/
def RVal.wellBehaved : RVal → Bool
  | .obj _ attrs => wbAttrs attrs
  | .func0 _ res => wbRes res
  | .list xs => wbList xs
  | .dict xs => wbPairs xs
  | .none => true
  | .bool _ => true
  | .int _ => true
  | .str _ _ => true
  | .funcN _ => true
termination_by v => (sizeOf v, 1)

/-- A stored attribute or call outcome is well behaved when it does not
raise and its value is well behaved. -/
def wbRes : Except Exc RVal → Bool
  | Except.ok v => v.wellBehaved
  | Except.error _ => false
termination_by r => (sizeOf r, 2)

/-- All list items well behaved. -/
def wbList : List RVal → Bool
  | [] => true
  | v :: rest => v.wellBehaved && wbList rest
termination_by xs => (sizeOf xs, 0)

/-- All dict values well behaved. -/
def wbPairs : List (String × RVal) → Bool
  | [] => true
  | (_, v) :: rest => v.wellBehaved && wbPairs rest
termination_by xs => (sizeOf xs, 0)

/-- All object attributes well behaved. -/
def wbAttrs : List (String × Except Exc RVal) → Bool
  | [] => true
  | (_, r) :: rest => wbRes r && wbAttrs rest
termination_by xs => (sizeOf xs, 0)

end

/-- A context all of whose values are well behaved. -/
def ctxWellBehaved (context : Ctx) : Bool := wbPairs context

theorem wbPairs_lookup {xs : List (String × RVal)} {k : String} {v : RVal}
    (h : wbPairs xs = true) (h2 : alookup xs k = Option.some v) :
    v.wellBehaved = true := by
  induction xs with
  | nil => simp [alookup] at h2
  | cons p rest ih =>
      obtain ⟨k2, w⟩ := p
      simp [wbPairs] at h
      simp [alookup] at h2
      by_cases hk : k2 = k
      · simp [hk] at h2
        exact h2 ▸ h.1
      · simp [hk] at h2
        exact ih h.2 h2

theorem wbAttrs_lookup {xs : List (String × Except Exc RVal)} {k : String}
    {r : Except Exc RVal}
    (h : wbAttrs xs = true) (h2 : alookup xs k = Option.some r) :
    wbRes r = true := by
  induction xs with
  | nil => simp [alookup] at h2
  | cons p rest ih =>
      obtain ⟨k2, w⟩ := p
      simp [wbAttrs] at h
      simp [alookup] at h2
      by_cases hk : k2 = k
      · simp [hk] at h2
        exact h2 ▸ h.1
      · simp [hk] at h2
        exact ih h.2 h2

theorem wbList_mem {xs : List RVal} {v : RVal}
    (h : wbList xs = true) (hm : v ∈ xs) : v.wellBehaved = true := by
  induction xs with
  | nil => cases hm
  | cons w rest ih =>
      simp [wbList] at h
      cases hm with
      | head => exact h.1
      | tail _ hm2 => exact ih h.2 hm2

theorem getItemStr_wb {current : RVal} {bit : String} {v : RVal}
    (h : current.wellBehaved = true) (h2 : getItemStr current bit = Except.ok v) :
    v.wellBehaved = true := by
  cases current <;> simp [getItemStr] at h2
  case dict xs =>
    rw [RVal.wellBehaved] at h
    cases h3 : alookup xs bit with
    | none => simp [h3] at h2
    | some w => simp [h3] at h2; exact h2 ▸ wbPairs_lookup h h3

theorem getItemStr_err_catch {current : RVal} {bit : String} {e : Exc}
    (h2 : getItemStr current bit = Except.error e) : e.isLookupCatch = true := by
  cases current <;> simp [getItemStr] at h2 <;> try simp [← h2, Exc.isLookupCatch]
  case dict xs =>
    cases h3 : alookup xs bit with
    | none => simp [h3] at h2; simp [← h2, Exc.isLookupCatch]
    | some w => simp [h3] at h2

theorem getAttr_not_raised {current : RVal} {bit : String} {e : Exc}
    (h : current.wellBehaved = true) : getAttr current bit ≠ AttrRes.raised e := by
  cases current <;> simp [getAttr]
  case obj oid attrs =>
    rw [RVal.wellBehaved] at h
    cases h3 : alookup attrs bit with
    | none => simp
    | some r =>
        cases r with
        | ok v => simp
        | error e2 =>
            have := wbAttrs_lookup h h3
            simp [wbRes] at this

theorem getAttr_found_wb {current : RVal} {bit : String} {v : RVal}
    (h : current.wellBehaved = true)
    (h2 : getAttr current bit = AttrRes.found v) : v.wellBehaved = true := by
  cases current <;> simp [getAttr] at h2
  case obj oid attrs =>
    rw [RVal.wellBehaved] at h
    cases h3 : alookup attrs bit with
    | none => simp [h3] at h2
    | some r =>
        cases r with
        | ok w =>
            simp [h3] at h2
            have := wbAttrs_lookup h h3
            rw [wbRes] at this
            exact h2 ▸ this
        | error e2 => simp [h3] at h2

theorem pyListIndex_mem {α : Type} {xs : List α} {i : Int} {v : α}
    (h : pyListIndex xs i = Option.some v) : v ∈ xs := by
  simp only [pyListIndex] at h
  split at h <;> split at h
  all_goals first
    | exact List.get?_mem h
    | cases h

theorem getItemInt_wb {current : RVal} {i : Int} {v : RVal}
    (h : current.wellBehaved = true) (h2 : getItemInt current i = Except.ok v) :
    v.wellBehaved = true := by
  cases current with
  | list xs =>
      rw [RVal.wellBehaved] at h
      simp only [getItemInt] at h2
      cases hp : pyListIndex xs i with
      | some w =>
          rw [hp] at h2
          cases h2
          exact wbList_mem h (pyListIndex_mem hp)
      | none => rw [hp] at h2; cases h2
  | str s safe =>
      simp only [getItemInt] at h2
      cases hp : pyListIndex s.data i with
      | some c => rw [hp] at h2; cases h2; rw [RVal.wellBehaved]
      | none => rw [hp] at h2; cases h2
  | dict xs => simp only [getItemInt] at h2; cases h2
  | none => simp only [getItemInt] at h2; cases h2
  | bool b => simp only [getItemInt] at h2; cases h2
  | int n => simp only [getItemInt] at h2; cases h2
  | obj oid attrs => simp only [getItemInt] at h2; cases h2
  | func0 oid res => simp only [getItemInt] at h2; cases h2
  | funcN oid => simp only [getItemInt] at h2; cases h2

theorem getItemInt_err_catch {current : RVal} {i : Int} {e : Exc}
    (h2 : getItemInt current i = Except.error e) : e.isIndexCatch = true := by
  cases current with
  | list xs =>
      simp only [getItemInt] at h2
      cases hp : pyListIndex xs i with
      | some w => rw [hp] at h2; cases h2
      | none => rw [hp] at h2; cases h2; rfl
  | str s safe =>
      simp only [getItemInt] at h2
      cases hp : pyListIndex s.data i with
      | some c => rw [hp] at h2; cases h2
      | none => rw [hp] at h2; cases h2; rfl
  | dict xs => simp only [getItemInt] at h2; cases h2; rfl
  | none => simp only [getItemInt] at h2; cases h2; rfl
  | bool b => simp only [getItemInt] at h2; cases h2; rfl
  | int n => simp only [getItemInt] at h2; cases h2; rfl
  | obj oid attrs => simp only [getItemInt] at h2; cases h2; rfl
  | func0 oid res => simp only [getItemInt] at h2; cases h2; rfl
  | funcN oid => simp only [getItemInt] at h2; cases h2; rfl

theorem callStep_wb {v : RVal} {cf : Bool} (h : v.wellBehaved = true) :
    ∃ w, callStep v cf = Except.ok w ∧ w.wellBehaved = true := by
  cases cf with
  | false => exact ⟨v, by simp [callStep], h⟩
  | true =>
    cases v with
    | func0 oid res =>
        rw [RVal.wellBehaved] at h
        cases res with
        | ok w => exact ⟨w, by simp [callStep], by rw [wbRes] at h; exact h⟩
        | error e => rw [wbRes] at h; simp at h
    | funcN oid => exact ⟨RVal.funcN oid, by simp [callStep], h⟩
    | none => exact ⟨RVal.none, by simp [callStep], h⟩
    | bool b => exact ⟨RVal.bool b, by simp [callStep], h⟩
    | int n => exact ⟨RVal.int n, by simp [callStep], h⟩
    | str s safe => exact ⟨RVal.str s safe, by simp [callStep], h⟩
    | list xs => exact ⟨RVal.list xs, by simp [callStep], h⟩
    | dict xs => exact ⟨RVal.dict xs, by simp [callStep], h⟩
    | obj oid attrs => exact ⟨RVal.obj oid attrs, by simp [callStep], h⟩

theorem resolveSegment_wb (current : RVal) (bit : String) (cf : Bool)
    (h : current.wellBehaved = true) :
    resolveSegment current bit cf = Except.ok Option.none
    ∨ ∃ v, resolveSegment current bit cf = Except.ok (Option.some v)
        ∧ v.wellBehaved = true := by
  rw [resolveSegment]
  cases hg : getItemStr current bit with
  | ok v =>
      obtain ⟨w, hc, hw⟩ := @callStep_wb _ cf (getItemStr_wb h hg)
      exact Or.inr ⟨w, by simp [hc, Except.map], hw⟩
  | error e =>
    simp only [getItemStr_err_catch hg, if_true]
    cases ha : getAttr current bit with
    | found v =>
        obtain ⟨w, hc, hw⟩ := @callStep_wb _ cf (getAttr_found_wb h ha)
        exact Or.inr ⟨w, by simp [hc, Except.map], hw⟩
    | raised e2 => exact absurd ha (getAttr_not_raised h)
    | missing =>
      cases hi : pyToInt? bit with
      | none => exact Or.inl rfl
      | some i =>
        cases hii : getItemInt current i with
        | ok v =>
            obtain ⟨w, hc, hw⟩ := @callStep_wb _ cf (getItemInt_wb h hii)
            refine Or.inr ⟨w, ?_, hw⟩
            simp [hii, hc, Except.map]
        | error e3 =>
            left
            simp [hii, getItemInt_err_catch hii]

theorem resolveBits_wb (bits : List String) (current : RVal) (cf : Bool)
    (h : current.wellBehaved = true) :
    ∃ v, resolveBits current bits cf = Except.ok v ∧ v.wellBehaved = true := by
  induction bits generalizing current with
  | nil => exact ⟨current, rfl, h⟩
  | cons bit rest ih =>
    rcases resolveSegment_wb current bit cf h with hs | ⟨v, hs, hv⟩
    · exact ⟨RVal.none, by rw [resolveBits, hs], by rw [RVal.wellBehaved]⟩
    · obtain ⟨w, hw, hww⟩ := ih v hv
      exact ⟨w, by rw [resolveBits, hs]; exact hw, hww⟩

/-- C2 counterexample: the claim's single-exception sentence is false.
A context entry that is a zero-argument callable whose body raises
ValueError makes `resolve_lookup` propagate that error out of the
`current()` call at the end of the segment loop (the call only catches
TypeError, and even a TypeError would be re-raised there once
`signature.bind()` succeeds), although no property getter is involved:
the identical lookup with `call_functions=False` resolves cleanly to the
callable object itself, showing the segment resolution succeeded and the
error belongs to the call step alone. -/
theorem C2_callable_error_propagates :
    resolve_lookup
        [("f", RVal.func0 0 (Except.error (Exc.valueError "boom")))] "f" true
      = Except.error (Exc.valueError "boom")
    ∧ resolve_lookup
        [("f", RVal.func0 0 (Except.error (Exc.valueError "boom")))] "f" false
      = Except.ok (RVal.func0 0 (Except.error (Exc.valueError "boom"))) := by
  constructor
  · rfl
  · rfl

/-- C2 (amended): the corrected error discipline of `resolve_lookup`.
First conjunct — no raise on well-behaved input: over any context whose
values are well behaved (no property getter and no zero-argument callable
of its own raises), every lookup path resolves without raising.
Second and third conjuncts — miss means None: a segment that cannot be
resolved (key absent on a dict, attribute absent on an object, and not an
integer index) makes the whole lookup return None at once, discarding any
remaining path segments.
Fourth and fifth conjuncts — property transparency: an attribute whose
property getter raises makes the segment propagate exactly that error
(outside the `(TypeError, AttributeError)` catch or re-raised by the `dir`
test), also through a two-segment path from the context.
Sixth and seventh conjuncts — call-step transparency: a zero-argument
callable found at a segment is invoked and its own error propagates
(only TypeError is caught, and it is re-raised because `signature.bind()`
succeeds for a zero-argument signature), while a callable requiring
arguments has its call TypeError swallowed and is kept uncalled.
Remaining conjuncts — lookup order: a successful mapping-key access is
used directly, the attribute fallback is consulted only after it, and the
call step applies to the result (`func0` outcomes are returned,
argument-requiring callables are kept). -/
theorem C2_resolve_lookup_discipline :
    (∀ (context : Ctx) (lookup : String) (cf : Bool),
        ctxWellBehaved context = true →
        ∃ v, resolve_lookup context lookup cf = Except.ok v)
    ∧ (∀ (context : Ctx) (bit : String) (rest : List String) (cf : Bool),
        alookup context bit = Option.none →
        pyToInt? bit = Option.none →
        resolveBits (RVal.dict context) (bit :: rest) cf
          = Except.ok RVal.none)
    ∧ (∀ (oid : Nat) (attrs : List (String × Except Exc RVal)) (bit : String)
          (rest : List String) (cf : Bool),
        alookup attrs bit = Option.none →
        pyToInt? bit = Option.none →
        resolveBits (RVal.obj oid attrs) (bit :: rest) cf
          = Except.ok RVal.none)
    ∧ (∀ (oid : Nat) (attrs : List (String × Except Exc RVal)) (bit : String)
          (e : Exc) (cf : Bool),
        alookup attrs bit = Option.some (Except.error e) →
        resolveSegment (RVal.obj oid attrs) bit cf = Except.error e)
    ∧ (∀ (context : Ctx) (name bit : String) (oid : Nat)
          (attrs : List (String × Except Exc RVal)) (e : Exc),
        alookup context name = Option.some (RVal.obj oid attrs) →
        alookup attrs bit = Option.some (Except.error e) →
        resolveBits (RVal.dict context) [name, bit] true = Except.error e)
    ∧ (∀ (context : Ctx) (name : String) (rest : List String) (oid : Nat)
          (e : Exc),
        alookup context name
            = Option.some (RVal.func0 oid (Except.error e)) →
        resolveBits (RVal.dict context) (name :: rest) true = Except.error e)
    ∧ (∀ (context : Ctx) (name : String) (oid : Nat),
        alookup context name = Option.some (RVal.funcN oid) →
        resolveBits (RVal.dict context) [name] true
          = Except.ok (RVal.funcN oid))
    ∧ (∀ (current : RVal) (bit : String) (v : RVal) (cf : Bool),
        getItemStr current bit = Except.ok v →
        resolveSegment current bit cf = (callStep v cf).map Option.some)
    ∧ (∀ (oid : Nat) (attrs : List (String × Except Exc RVal)) (bit : String)
          (v : RVal) (cf : Bool),
        alookup attrs bit = Option.some (Except.ok v) →
        resolveSegment (RVal.obj oid attrs) bit cf
          = (callStep v cf).map Option.some)
    ∧ (∀ (oid : Nat) (res : Except Exc RVal),
        callStep (RVal.func0 oid res) true = res)
    ∧ (∀ (oid : Nat),
        callStep (RVal.funcN oid) true = Except.ok (RVal.funcN oid)) := by
  refine ⟨?_, ?_, ?_, ?_, ?_, ?_, ?_, ?_, ?_, ?_, ?_⟩
  · intro context lookup cf h
    have hd : (RVal.dict context).wellBehaved = true := by
      rw [RVal.wellBehaved]; exact h
    obtain ⟨v, hv, _⟩ := resolveBits_wb (splitDots lookup.data []) _ cf hd
    exact ⟨v, hv⟩
  · intro context bit rest cf h1 h2
    have hseg : resolveSegment (RVal.dict context) bit cf
        = Except.ok Option.none := by
      rw [resolveSegment]
      simp [getItemStr, h1, Exc.isLookupCatch, getAttr, h2]
    simp only [resolveBits, hseg]
  · intro oid attrs bit rest cf h1 h2
    have hseg : resolveSegment (RVal.obj oid attrs) bit cf
        = Except.ok Option.none := by
      rw [resolveSegment]
      simp [getItemStr, Exc.isLookupCatch, getAttr, h1, h2]
    simp only [resolveBits, hseg]
  · intro oid attrs bit e cf h
    rw [resolveSegment]
    simp [getItemStr, Exc.isLookupCatch, getAttr, h, inDir, RVal.isDict]
  · intro context name bit oid attrs e h1 h2
    have hseg1 : resolveSegment (RVal.dict context) name true
        = Except.ok (Option.some (RVal.obj oid attrs)) := by
      rw [resolveSegment]
      simp [getItemStr, h1, callStep, Except.map]
    have hseg2 : resolveSegment (RVal.obj oid attrs) bit true
        = Except.error e := by
      rw [resolveSegment]
      simp [getItemStr, Exc.isLookupCatch, getAttr, h2, inDir, RVal.isDict]
    simp only [resolveBits, hseg1, hseg2]
  · intro context name rest oid e h
    have hseg : resolveSegment (RVal.dict context) name true
        = Except.error e := by
      rw [resolveSegment]
      simp [getItemStr, h, callStep, Except.map]
    simp only [resolveBits, hseg]
  · intro context name oid h
    have hseg : resolveSegment (RVal.dict context) name true
        = Except.ok (Option.some (RVal.funcN oid)) := by
      rw [resolveSegment]
      simp [getItemStr, h, callStep, Except.map]
    simp only [resolveBits, hseg]
  · intro current bit v cf h
    rw [resolveSegment, h]
  · intro oid attrs bit v cf h
    rw [resolveSegment]
    simp [getItemStr, Exc.isLookupCatch, getAttr, h]
  · intro oid res
    simp [callStep]
  · intro oid
    simp [callStep]

/-- C2 witness: a two-segment dict lookup over a well-behaved context
resolves without raising; a missing non-numeric segment makes the whole
remaining path yield None at once; a property getter that raises
propagates its own error through the two-segment path; and a raising
zero-argument callable found in the context propagates its own error. -/
theorem C2_witness :
    (∃ v, resolve_lookup [("a", RVal.dict [("b", RVal.int 7)])] "a.b" true
        = Except.ok v)
    ∧ resolveBits (RVal.dict [("a", RVal.int 5)]) ["missing", "x"] true
        = Except.ok RVal.none
    ∧ resolveBits
        (RVal.dict [("a", RVal.obj 1 [("p", Except.error (Exc.userError "boom"))])])
        ["a", "p"] true
      = Except.error (Exc.userError "boom")
    ∧ resolveBits
        (RVal.dict [("g", RVal.func0 2 (Except.error (Exc.userError "late")))])
        ["g", "tail"] true
      = Except.error (Exc.userError "late") := by
  refine ⟨?_, ?_, ?_, ?_⟩
  · exact C2_resolve_lookup_discipline.1 _ _ _
      (by simp [ctxWellBehaved, wbPairs, RVal.wellBehaved])
  · exact C2_resolve_lookup_discipline.2.1
      [("a", RVal.int 5)] "missing" ["x"] true
      (by simp [alookup]) (by decide)
  · exact C2_resolve_lookup_discipline.2.2.2.2.1
      [("a", RVal.obj 1 [("p", Except.error (Exc.userError "boom"))])] "a" "p" 1
      [("p", Except.error (Exc.userError "boom"))] (Exc.userError "boom")
      (by simp [alookup]) (by simp [alookup])
  · exact C2_resolve_lookup_discipline.2.2.2.2.2.1
      [("g", RVal.func0 2 (Except.error (Exc.userError "late")))] "g" ["tail"]
      2 (Exc.userError "late") (by simp [alookup])

/-- Whether resolving or rendering a node raises (the exceptions that the
`try` of `_render_element` catches), together with the raised error and
its traceback chain: lazy leaves raise through their resolution, elements
through their `render` call. -/
def renderRaises (el : Node) (context : Ctx) (stringify : Bool)
    (fragment : Option String) : Option Err :=
  match el with
  | .lit _ => Option.none
  | .ctxValue p =>
      (match resolve_lookup context p with
       | Except.error e => Option.some (e, [Node.ctxValue p])
       | Except.ok _ => Option.none)
  | .ctxFunc oid res =>
      (match res with
       | Except.error e => Option.some (e, [Node.ctxFunc oid res])
       | Except.ok _ => Option.none)
  | el =>
      (match renderNode el context stringify fragment with
       | Except.error err => Option.some err
       | Except.ok _ => Option.none)

theorem render_element_of_raises {el : Node} {context : Ctx}
    {stringify : Bool} {fragment : Option String} {e : Exc}
    {chain : List Node}
    (h : renderRaises el context stringify fragment
      = Option.some (e, chain)) :
    render_element el context stringify fragment
      = handleException (e, chain) context := by
  cases el with
  | lit v => simp [renderRaises] at h
  | ctxValue p =>
      simp only [renderRaises] at h
      simp only [render_element]
      cases hr : resolve_lookup context p with
      | error e2 => rw [hr] at h; cases h; rfl
      | ok v => rw [hr] at h; cases h
  | ctxFunc oid res =>
      simp only [renderRaises] at h
      rw [render_element.eq_def]
      cases res with
      | error e2 => cases h; rfl
      | ok v => cases h
  | base cs =>
      simp only [renderRaises] at h
      simp only [render_element]
      cases hr : renderNode (Node.base cs) context stringify fragment with
      | error err => rw [hr] at h; cases h; rfl
      | ok r => rw [hr] at h; cases h
  | ifElem c cs =>
      simp only [renderRaises] at h
      simp only [render_element]
      cases hr : renderNode (Node.ifElem c cs) context stringify fragment with
      | error err => rw [hr] at h; cases h; rfl
      | ok r => rw [hr] at h; cases h
  | iterator a b cs =>
      simp only [renderRaises] at h
      simp only [render_element]
      cases hr : renderNode (Node.iterator a b cs) context stringify fragment with
      | error err => rw [hr] at h; cases h; rfl
      | ok r => rw [hr] at h; cases h
  | withContext a cs =>
      simp only [renderRaises] at h
      simp only [render_element]
      cases hr : renderNode (Node.withContext a cs) context stringify fragment with
      | error err => rw [hr] at h; cases h; rfl
      | ok r => rw [hr] at h; cases h
  | fragment a cs =>
      simp only [renderRaises] at h
      simp only [render_element]
      cases hr : renderNode (Node.fragment a cs) context stringify fragment with
      | error err => rw [hr] at h; cases h; rfl
      | ok r => rw [hr] at h; cases h
  | formatString a b c d =>
      simp only [renderRaises] at h
      simp only [render_element]
      cases hr : renderNode (Node.formatString a b c d) context stringify fragment with
      | error err => rw [hr] at h; cases h; rfl
      | ok r => rw [hr] at h; cases h
  | html t v attrs cs =>
      simp only [renderRaises] at h
      simp only [render_element]
      cases hr : renderNode (Node.html t v attrs cs) context stringify fragment with
      | error err => rw [hr] at h; cases h; rfl
      | ok r => rw [hr] at h; cases h

/-- C3: a child whose resolution or rendering raises is caught at the
nearest `_render_element` boundary: the siblings before and after it
render exactly as they would alone, the failed position contributes the
inline error marker (a `pre` block naming the escaped exception plus a
logging script), and exactly one handler invocation is recorded, using the
context-supplied handler under `EXCEPTION_HANDLER_NAME` when present
(`alookup` finding nothing selects the default stderr handler), with the
diagnostic built from the chain of nested objects between the boundary and
the raise site. -/
theorem C3_render_error_containment
    (context : Ctx) (pre post : List Node) (bad : Node) (e : Exc)
    (chain : List Node) (stringify : Bool) (fragment : Option String)
    (h : renderRaises bad context stringify fragment
      = Option.some (e, chain)) :
    render_children (pre ++ bad :: post) context stringify fragment
      = ((render_children pre context stringify fragment).1
           ++ Out.txt (excMarker e) false
             :: (render_children post context stringify fragment).1,
         (render_children pre context stringify fragment).2
           ++ ⟨alookup context EXCEPTION_HANDLER_NAME, diagnostic chain e⟩
             :: (render_children post context stringify fragment).2) := by
  induction pre with
  | nil =>
      simp only [List.nil_append, render_children]
      rw [render_element_of_raises h]
      simp [handleException]
  | cons c rest ih =>
      simp only [List.cons_append, render_children]
      rw [ih]
      simp

/-- C3 witness: under the empty context (no handler supplied), a child
`HTMLElement` — whose render call raises the signature TypeError — is
caught between two string siblings: both siblings render, the marker
appears in between, and the default handler is recorded once with the
diagnostic of the empty chain. -/
theorem C3_witness :
    render_children
        [Node.lit (RVal.str "a" false), Node.html "div" false [] [],
         Node.lit (RVal.str "b" false)] [] true Option.none
      = ([Out.txt "a" true, Out.txt (excMarker RENDER_SIG_ERROR) false,
          Out.txt "b" true],
         [⟨Option.none, diagnostic [] RENDER_SIG_ERROR⟩]) := by
  have h := C3_render_error_containment [] [Node.lit (RVal.str "a" false)]
    [Node.lit (RVal.str "b" false)] (Node.html "div" false [] [])
    RENDER_SIG_ERROR [] true Option.none
    (by simp [renderRaises, renderNode])
  simp only [List.singleton_append] at h
  rw [h]
  simp [render_children, render_element, leafYield, condEscape, alookup,
    htmlEscape, escapeChar]
  exact ⟨rfl, rfl⟩

mutual

/-- The declarative pre-order enumeration matching the claim: every
element node of the walked containers together with its ancestor path, the
node itself first, then its attribute values, then its children. -/
def enumWalk (children : List Node) (ancestors : List Node) :
    List (Node × List Node) :=
  match children with
  | [] => []
  | e :: rest => enumOne e ancestors ++ enumWalk rest ancestors
termination_by (sizeOf children, 0)

/-- The enumeration of one node: itself (when it is an element), its
attribute values for a markup element, then its subtree. -/
def enumOne (e : Node) (ancestors : List Node) : List (Node × List Node) :=
  match e with
  | .lit _ | .ctxValue _ | .ctxFunc _ _ => []
  | .html tag vt attrs cs =>
      (Node.html tag vt attrs cs, ancestors)
        :: (enumAttrs attrs (ancestors ++ [Node.html tag vt attrs cs])
            ++ enumWalk cs (ancestors ++ [Node.html tag vt attrs cs]))
  | .base cs =>
      (Node.base cs, ancestors) :: enumWalk cs (ancestors ++ [Node.base cs])
  | .ifElem c cs =>
      (Node.ifElem c cs, ancestors)
        :: enumWalk cs (ancestors ++ [Node.ifElem c cs])
  | .iterator a b cs =>
      (Node.iterator a b cs, ancestors)
        :: enumWalk cs (ancestors ++ [Node.iterator a b cs])
  | .withContext a cs =>
      (Node.withContext a cs, ancestors)
        :: enumWalk cs (ancestors ++ [Node.withContext a cs])
  | .fragment a cs =>
      (Node.fragment a cs, ancestors)
        :: enumWalk cs (ancestors ++ [Node.fragment a cs])
  | .formatString a b c d => [(Node.formatString a b c d, ancestors)]
termination_by (sizeOf e, 1)

/-- The enumeration of the attribute values of a markup element. -/
def enumAttrs (attrs : List (String × Node)) (ancestors : List Node) :
    List (Node × List Node) :=
  match attrs with
  | [] => []
  | (_, v) :: rest => enumOne v ancestors ++ enumAttrs rest ancestors
termination_by (sizeOf attrs, 0)

end

mutual

theorem treewalkF_eq_enum (p : Pred) (cs : List Node) (anc : List Node) :
    treewalkF p cs anc
      = ((enumWalk cs anc).filter (fun q => p q.1 q.2)).map Prod.fst := by
  match cs with
  | [] => rw [treewalkF, enumWalk]; rfl
  | e :: rest =>
      rw [treewalkF, enumWalk, walkOne_eq_enum p e anc,
        treewalkF_eq_enum p rest anc]
      simp [List.filter_append]
termination_by (sizeOf cs, 0)

theorem walkOne_eq_enum (p : Pred) (e : Node) (anc : List Node) :
    walkOne p e anc
      = ((enumOne e anc).filter (fun q => p q.1 q.2)).map Prod.fst := by
  match e with
  | .lit v => rw [walkOne, enumOne]; rfl
  | .ctxValue q => rw [walkOne, enumOne]; rfl
  | .ctxFunc o r => rw [walkOne, enumOne]; rfl
  | .html tag vt attrs cs =>
      rw [walkOne, enumOne, walkAttrsF_eq_enum p attrs _,
        treewalkF_eq_enum p cs _]
      by_cases hp : p (Node.html tag vt attrs cs) anc
        <;> simp [hp, List.filter_append]
  | .base cs =>
      rw [walkOne, enumOne, treewalkF_eq_enum p cs _]
      by_cases hp : p (Node.base cs) anc <;> simp [hp]
  | .ifElem c cs =>
      rw [walkOne, enumOne, treewalkF_eq_enum p cs _]
      by_cases hp : p (Node.ifElem c cs) anc <;> simp [hp]
  | .iterator a b cs =>
      rw [walkOne, enumOne, treewalkF_eq_enum p cs _]
      by_cases hp : p (Node.iterator a b cs) anc <;> simp [hp]
  | .withContext a cs =>
      rw [walkOne, enumOne, treewalkF_eq_enum p cs _]
      by_cases hp : p (Node.withContext a cs) anc <;> simp [hp]
  | .fragment a cs =>
      rw [walkOne, enumOne, treewalkF_eq_enum p cs _]
      by_cases hp : p (Node.fragment a cs) anc <;> simp [hp]
  | .formatString a b c d =>
      rw [walkOne, enumOne]
      by_cases hp : p (Node.formatString a b c d) anc <;> simp [hp]
termination_by (sizeOf e, 1)

theorem walkAttrsF_eq_enum (p : Pred) (attrs : List (String × Node))
    (anc : List Node) :
    walkAttrsF p attrs anc
      = ((enumAttrs attrs anc).filter (fun q => p q.1 q.2)).map Prod.fst := by
  match attrs with
  | [] => rw [walkAttrsF, enumAttrs]; rfl
  | (k, v) :: rest =>
      rw [walkAttrsF, enumAttrs, walkOne_eq_enum p v anc,
        walkAttrsF_eq_enum p rest anc]
      simp [List.filter_append]
termination_by (sizeOf attrs, 0)

end

/-- C5 (amended): `filter` performs a depth-first pre-order traversal over
the subtree of the element it is called on, INCLUDING that element itself
(tested with the empty ancestor path, since `filter` wraps the element in
a fresh container before walking), yielding exactly the element nodes —
attribute values of markup elements walked before their children — for
which the predicate holds: the yielded sequence equals the pre-order
enumeration of (node, ancestors) pairs filtered by the predicate. -/
theorem C5_filter_preorder_enumeration (self : Node) (p : Pred) :
    filterModel self p
      = ((enumWalk [self] []).filter (fun q => p q.1 q.2)).map Prod.fst := by
  rw [filterModel, treewalkF_eq_enum]

/-- C7 (amended): the replacement discipline of `_replace`.
First conjunct — deepest-first: when a replacement has already happened
inside an entry's own subtree (or its attribute values), the in-flight
ReachFirstException ends the pass: the entry keeps only its subtree
change, its own recorded match is never applied and later siblings are
left untouched.
Second conjunct — first recorded index: when no replacement happened
inside any entry of a container, the first recorded match index of that
container is replaced and the pass stops.
Third conjunct — null replacement: a pop with no insert, i.e. a pure
delete at the site.
Fourth conjunct — with `all=true` no ReachFirstException is ever raised
by the deferred loop, which therefore applies every recorded index of the
container in the same pass. -/
theorem C7_replace_discipline :
    (∀ (p : Pred) (repl : Option Node) (e e1 : Node) (m : Bool)
        (rest anc : List Node),
      repElemStep p repl false e anc = Except.ok (e1, m, true) →
      repContainer p repl false (e :: rest) anc
        = Except.ok (e1 :: rest, true))
    ∧ (∀ (p : Pred) (r : Node) (cs anc uc : List Node) (i : Nat)
        (idxs : List Nat),
      repPhase1 p (Option.some r) false cs anc 0
        = Except.ok (uc, i :: idxs, false) →
      i < uc.length →
      repContainer p (Option.some r) false cs anc
        = Except.ok (uc.take i ++ [r] ++ uc.drop (i + 1), true))
    ∧ (∀ (xs : List Node) (i : Nat), i < xs.length →
      popInsert xs i Option.none = Except.ok (xs.take i ++ xs.drop (i + 1)))
    ∧ (∀ (idxs : List Nat) (container : List Node) (repl : Option Node)
        (uc2 : List Node) (st : Bool),
      repPhase2 idxs container repl true = Except.ok (uc2, st) →
      st = false) := by
  refine ⟨?_, ?_, ?_, ?_⟩
  · intro p repl e e1 m rest anc h
    rw [repContainer, repPhase1, h]
  · intro p r cs anc uc i idxs h hi
    simp only [repContainer, h]
    have hlen : (uc.take i).length = i := by
      simp [List.length_take]
      omega
    have hpop : popInsert uc i (Option.some r)
        = Except.ok (uc.take i ++ [r] ++ uc.drop (i + 1)) := by
      rw [popInsert]
      simp only [hi, if_true]
      have h1 : ((uc.take i ++ uc.drop (i + 1)).take i) = uc.take i :=
        List.take_left' hlen
      have h2 : ((uc.take i ++ uc.drop (i + 1)).drop i) = uc.drop (i + 1) :=
        List.drop_left' hlen
      rw [h1, h2]
    rw [repPhase2, hpop]
    rfl
  · intro xs i hi
    rw [popInsert]
    simp [hi]
  · intro idxs
    induction idxs with
    | nil =>
        intro container repl uc2 st h
        rw [repPhase2] at h
        cases h
        rfl
    | cons i rest ih =>
        intro container repl uc2 st h
        rw [repPhase2] at h
        cases hp : popInsert container i repl with
        | error e => rw [hp] at h; cases h
        | ok c1 =>
            rw [hp] at h
            simp only [if_true] at h
            exact ih c1 repl uc2 st h

/-- C7 witness: on `BaseElement(DIV(DIV()))` the inner replacement is
already in flight after the first entry's step, so the pass ends with the
outer DIV intact; and a deferred pop at index 0 of a singleton container
with a null replacement deletes the entry. -/
theorem C7_witness :
    repContainer C7_pred (Option.some (Node.html "span" false [] [])) false
        [Node.html "div" false [] [Node.html "div" false [] []]] [C7_tree]
      = Except.ok
          ([Node.html "div" false [] [Node.html "span" false [] []]], true)
    ∧ popInsert [Node.html "div" false [] []] 0 Option.none = Except.ok [] := by
  constructor
  · exact C7_replace_discipline.1 C7_pred _ _ _ true [] [C7_tree]
      (by simp [repElemStep, repAttrWalk, repAttrPhase1, repPhase2,
        repContainer, repPhase1, popInsert, C7_pred])
  · exact C7_replace_discipline.2.2.1 [Node.html "div" false [] []] 0
      (by simp)

/-- A string without brace characters, i.e. one that the format-string
parser consumes as pure literal text. -/
def braceFree (s : String) : Bool :=
  s.data.all (fun c => c ≠ '\x7b' ∧ c ≠ '\x7d')

theorem parseLit_bracefree (cs : List Char) (tail acc : List Char)
    (h : ∀ c ∈ cs, c ≠ '\x7b' ∧ c ≠ '\x7d') :
    parseLit (cs ++ tail) acc = parseLit tail (cs.reverse ++ acc) := by
  induction cs generalizing acc with
  | nil => simp
  | cons c rest ih =>
      have hc := h c (List.mem_cons_self c rest)
      rw [List.cons_append, parseLit.eq_def]
      simp [hc.1, hc.2]
      rw [ih (c :: acc) (fun c2 hm => h c2 (List.mem_cons_of_mem c hm))]

theorem string_empty_append (s : String) : "" ++ s = s := by
  obtain ⟨d⟩ := s
  rfl

theorem parseLit_literal (cs : List Char) (acc : List Char)
    (h : ∀ c ∈ cs, c ≠ '\x7b' ∧ c ≠ '\x7d') :
    parseLit cs acc = Except.ok (flushLit (cs.reverse ++ acc)) := by
  have h2 := parseLit_bracefree cs [] acc h
  rw [List.append_nil] at h2
  rw [h2, parseLit.eq_def]

theorem parseLit_field_start (c2 : Char) (rest2 acc : List Char)
    (h : ¬ c2 = '\x7b') :
    parseLit ('\x7b' :: c2 :: rest2) acc = parseField (c2 :: rest2) [] acc := by
  rw [parseLit.eq_def]
  simp [h]

theorem parseField_close (rest facc lacc : List Char) :
    parseField ('\x7d' :: rest) facc lacc
      = match parseLit rest [] with
        | Except.ok segs =>
            Except.ok (flushLit lacc ++ [mkField facc.reverse] ++ segs)
        | Except.error e => Except.error e := by
  rw [parseField.eq_def]
  simp

/-- C8: escaping in `FormatString` is applied per value.  For every format
string of the shape `lit1 ++ "\x7b\x7d" ++ lit2` with brace-free literal
parts, every template safety flag, every string argument and every
context: the literal segments are escaped exactly when the format string
is not marked safe, and the substituted argument is escaped exactly when
it is not individually marked safe — so a safe template with an unsafe
argument escapes only the argument, and an unsafe template with a safe
argument escapes only the literal segments. -/
theorem C8_formatstring_per_value_escaping
    (lit1 lit2 v : String) (fmtSafe vSafe : Bool) (context : Ctx)
    (h1 : braceFree lit1 = true) (h2 : braceFree lit2 = true) :
    formatEval (lit1 ++ "\x7b\x7d" ++ lit2) fmtSafe
        [Node.lit (RVal.str v vSafe)] [] context
      = Except.ok ((if fmtSafe then lit1 else htmlEscape lit1)
          ++ (if vSafe then v else htmlEscape v)
          ++ (if fmtSafe then lit2 else htmlEscape lit2), []) := by
  have hb1 : ∀ c ∈ lit1.data, c ≠ '\x7b' ∧ c ≠ '\x7d' := by
    intro c hm
    simpa using List.all_eq_true.mp h1 c hm
  have hb2 : ∀ c ∈ lit2.data, c ≠ '\x7b' ∧ c ≠ '\x7d' := by
    intro c hm
    simpa using List.all_eq_true.mp h2 c hm
  have hd : (lit1 ++ "\x7b\x7d" ++ lit2).data
      = lit1.data ++ ('\x7b' :: '\x7d' :: lit2.data) := by
    have : (lit1 ++ "\x7b\x7d" ++ lit2).data
        = (lit1.data ++ ['\x7b', '\x7d']) ++ lit2.data := rfl
    rw [this, List.append_assoc]
    rfl
  have hparse : parseFormat (lit1 ++ "\x7b\x7d" ++ lit2)
      = Except.ok (flushLit lit1.data.reverse
          ++ [Seg.field "" "" Option.none] ++ flushLit lit2.data.reverse) := by
    rw [parseFormat, hd, parseLit_bracefree _ _ _ hb1, List.append_nil,
      parseLit_field_start _ _ _ (by decide), parseField_close,
      parseLit_literal _ _ hb2, List.append_nil]
    rfl
  have h0 : toString (0 : Nat) = "0" := rfl
  have hfield : ∀ (rest : List Seg),
      vformatSegs (Seg.field "" "" Option.none :: rest) (Option.some 0)
          fmtSafe [Node.lit (RVal.str v vSafe)] [] context
        = match vformatSegs rest (Option.some 1) fmtSafe
            [Node.lit (RVal.str v vSafe)] [] context with
          | Except.error err => Except.error err
          | Except.ok (ps, evs) =>
              Except.ok (cescapeText (RVal.str v vSafe) :: ps, evs) := by
    intro rest
    rw [vformatSegs]
    simp [h0, mapExtract, mapExtractKw, extract, isDigits, digitsToNat]
  have hlit : ∀ (s2 : String) (st : Option Nat) (rest : List Seg),
      vformatSegs (Seg.lit s2 :: rest) st fmtSafe
          [Node.lit (RVal.str v vSafe)] [] context
        = match vformatSegs rest st fmtSafe
            [Node.lit (RVal.str v vSafe)] [] context with
          | Except.error err => Except.error err
          | Except.ok (ps, evs) =>
              Except.ok ((if fmtSafe then s2 else htmlEscape s2) :: ps, evs) := by
    intro s2 st rest
    rw [vformatSegs]
  have hnil : ∀ (st : Option Nat),
      vformatSegs [] st fmtSafe [Node.lit (RVal.str v vSafe)] [] context
        = Except.ok ([], []) := by
    intro st
    rw [vformatSegs]
  rw [formatEval, hparse]
  have hmk1 : String.mk lit1.data.reverse.reverse = lit1 := by
    rw [List.reverse_reverse]
  have hmk2 : String.mk lit2.data.reverse.reverse = lit2 := by
    rw [List.reverse_reverse]
  have hesc : cescapeText (RVal.str v vSafe)
      = (if vSafe then v else htmlEscape v) := by
    cases vSafe <;> rfl
  by_cases e1 : lit1.data.reverse.isEmpty <;>
    by_cases e2 : lit2.data.reverse.isEmpty
  all_goals
    simp only [flushLit, e1, e2, if_true, if_false, reduceIte,
      Bool.false_eq_true, ite_true, ite_false, hmk1, hmk2,
      List.nil_append, List.append_nil, List.singleton_append,
      List.cons_append]
  · have g1 : lit1 = "" := by
      obtain ⟨d⟩ := lit1
      simp at e1
      simp [e1]
    have g2 : lit2 = "" := by
      obtain ⟨d⟩ := lit2
      simp at e2
      simp [e2]
    rw [hfield, hnil]
    subst g1; subst g2
    cases fmtSafe <;> cases vSafe <;>
      simp [String.join, cescapeText, htmlEscape, pyStr, string_empty_append]
  · have g1 : lit1 = "" := by
      obtain ⟨d⟩ := lit1
      simp at e1
      simp [e1]
    rw [hfield, hlit, hnil]
    subst g1
    cases fmtSafe <;> cases vSafe <;>
      simp [String.join, cescapeText, htmlEscape, pyStr, string_empty_append]
  · have g2 : lit2 = "" := by
      obtain ⟨d⟩ := lit2
      simp at e2
      simp [e2]
    rw [hlit, hfield, hnil]
    subst g2
    cases fmtSafe <;> cases vSafe <;>
      simp [String.join, cescapeText, htmlEscape, pyStr, string_empty_append]
  · rw [hlit, hfield, hlit, hnil]
    cases fmtSafe <;> cases vSafe <;>
      simp [String.join, cescapeText, htmlEscape, pyStr, string_empty_append]

/-- C8 witness: the repository test case `format(mark_safe("<>: \x7b\x7d"),
"&")` — a safe template with an unsafe argument — escapes only the
argument, producing `<>: &amp;`. -/
theorem C8_witness :
    braceFree "<>: " = true
    ∧ formatEval ("<>: " ++ "\x7b\x7d" ++ "") true
        [Node.lit (RVal.str "&" false)] [] []
      = Except.ok ("<>: &amp;", []) := by
  refine ⟨by decide, ?_⟩
  rw [C8_formatstring_per_value_escaping "<>: " "" "&" true false []
    (by decide) (by decide)]
  simp only [reduceIte]
  rw [show ("<>: " ++ if false = true then "&" else htmlEscape "&") ++ ""
      = "<>: &amp;" from by decide]

/-- Two contexts that are equal as mappings (Python `==` on dicts ignores
insertion order). -/
def ctxEquiv (c1 c2 : Ctx) : Prop := ∀ k, alookup c1 k = alookup c2 k

theorem alookup_aset {α : Type} (xs : List (String × α)) (k : String)
    (v : α) (k2 : String) :
    alookup (aset xs k v) k2 = if k = k2 then Option.some v else alookup xs k2 := by
  induction xs with
  | nil =>
      by_cases hk : k = k2 <;> simp [aset, alookup, hk]
  | cons p rest ih =>
      obtain ⟨k3, w⟩ := p
      by_cases h3 : k3 = k
      · subst h3
        by_cases hk : k3 = k2 <;> simp [aset, alookup, hk]
      · by_cases hk2 : k3 = k2
        · subst hk2
          have : ¬ k = k3 := fun hh => h3 hh.symm
          simp [aset, alookup, h3, this]
        · simp [aset, alookup, h3, hk2, ih]

theorem ctxEquiv_aset {c1 c2 : Ctx} (h : ctxEquiv c1 c2) (k : String)
    (v : RVal) : ctxEquiv (aset c1 k v) (aset c2 k v) := by
  intro k2
  rw [alookup_aset, alookup_aset, h k2]

theorem ctxEquiv_amerge {c1 c2 : Ctx} (h : ctxEquiv c1 c2)
    (adds : List (String × RVal)) :
    ctxEquiv (amerge c1 adds) (amerge c2 adds) := by
  induction adds generalizing c1 c2 with
  | nil => exact h
  | cons p rest ih =>
      obtain ⟨k, v⟩ := p
      exact ih (ctxEquiv_aset h k v)

theorem resolveSegment_dict_congr {c1 c2 : Ctx} (h : ctxEquiv c1 c2)
    (bit : String) (cf : Bool) :
    resolveSegment (RVal.dict c1) bit cf
      = resolveSegment (RVal.dict c2) bit cf := by
  rw [resolveSegment, resolveSegment]
  simp [getItemStr, h bit, getAttr, getItemInt]

theorem splitDots_ne_nil (cs : List Char) (acc : List Char) :
    splitDots cs acc ≠ [] := by
  induction cs generalizing acc with
  | nil => simp [splitDots]
  | cons c rest ih =>
      rw [splitDots]
      by_cases hc : c = '.' <;> simp [hc, ih]

theorem resolve_lookup_congr {c1 c2 : Ctx} (h : ctxEquiv c1 c2)
    (lookup : String) (cf : Bool) :
    resolve_lookup c1 lookup cf = resolve_lookup c2 lookup cf := by
  rw [resolve_lookup, resolve_lookup]
  cases hb : splitDots lookup.data [] with
  | nil => exact absurd hb (splitDots_ne_nil _ _)
  | cons bit rest =>
      rw [resolveBits, resolveBits, resolveSegment_dict_congr h]

theorem handleException_congr {c1 c2 : Ctx} (h : ctxEquiv c1 c2)
    (err : Err) : handleException err c1 = handleException err c2 := by
  simp [handleException, h EXCEPTION_HANDLER_NAME]

theorem resolveLazyNode_congr {c1 c2 : Ctx} (h : ctxEquiv c1 c2)
    (n : Node) : resolveLazyNode n c1 = resolveLazyNode n c2 := by
  cases n with
  | ctxValue p => simp [resolveLazyNode, resolve_lookup_congr h]
  | ctxFunc oid res => rfl
  | lit v => rfl
  | base cs => rfl
  | ifElem c cs => rfl
  | iterator a b cs => rfl
  | withContext a cs => rfl
  | fragment a cs => rfl
  | formatString a b c d => rfl
  | html a b c d => rfl

theorem resolveCondition_congr {c1 c2 : Ctx} (h : ctxEquiv c1 c2)
    (cond : Node) : resolveCondition cond c1 = resolveCondition cond c2 := by
  rw [resolveCondition, resolveCondition, resolveLazyNode_congr h]

mutual

theorem render_element_congr (element : Node) (c1 c2 : Ctx)
    (h : ctxEquiv c1 c2) (stringify : Bool) (fragment : Option String) :
    render_element element c1 stringify fragment
      = render_element element c2 stringify fragment := by
  cases element with
  | lit v => simp only [render_element]
  | ctxValue p =>
      simp only [render_element]
      rw [resolve_lookup_congr h]
      cases resolve_lookup c2 p with
      | error e => exact handleException_congr h (e, [Node.ctxValue p])
      | ok v => rfl
  | ctxFunc oid res =>
      cases res with
      | error e =>
          simp only [render_element]
          exact handleException_congr h (e, [Node.ctxFunc oid (Except.error e)])
      | ok v => simp only [render_element]
  | base cs =>
      simp only [render_element]
      rw [renderNode_congr (Node.base cs) c1 c2 h stringify fragment]
      cases renderNode (Node.base cs) c2 stringify fragment with
      | ok r => rfl
      | error err => exact handleException_congr h err
  | fragment name cs =>
      simp only [render_element]
      rw [renderNode_congr (Node.fragment name cs) c1 c2 h stringify fragment]
      cases renderNode (Node.fragment name cs) c2 stringify fragment with
      | ok r => rfl
      | error err => exact handleException_congr h err
  | withContext adds cs =>
      simp only [render_element]
      rw [renderNode_congr (Node.withContext adds cs) c1 c2 h stringify
        fragment]
      cases renderNode (Node.withContext adds cs) c2 stringify fragment with
      | ok r => rfl
      | error err => exact handleException_congr h err
  | ifElem cond cs =>
      simp only [render_element]
      rw [renderNode_congr (Node.ifElem cond cs) c1 c2 h stringify fragment]
      cases renderNode (Node.ifElem cond cs) c2 stringify fragment with
      | ok r => rfl
      | error err => exact handleException_congr h err
  | iterator it loopvar cs =>
      simp only [render_element]
      rw [renderNode_congr (Node.iterator it loopvar cs) c1 c2 h stringify
        fragment]
      cases renderNode (Node.iterator it loopvar cs) c2 stringify fragment with
      | ok r => rfl
      | error err => exact handleException_congr h err
  | formatString fmt fmtSafe args kwargs =>
      simp only [render_element]
      rw [renderNode_congr (Node.formatString fmt fmtSafe args kwargs) c1 c2 h
        stringify fragment]
      cases renderNode (Node.formatString fmt fmtSafe args kwargs) c2
          stringify fragment with
      | ok r => rfl
      | error err => exact handleException_congr h err
  | html tag voidTag attrs cs =>
      simp only [render_element]
      rw [renderNode_congr (Node.html tag voidTag attrs cs) c1 c2 h stringify
        fragment]
      cases renderNode (Node.html tag voidTag attrs cs) c2 stringify
          fragment with
      | ok r => rfl
      | error err => exact handleException_congr h err

termination_by (sizeOf element, 4, 0)

theorem render_children_congr (children : List Node) (c1 c2 : Ctx)
    (h : ctxEquiv c1 c2) (stringify : Bool) (fragment : Option String) :
    render_children children c1 stringify fragment
      = render_children children c2 stringify fragment := by
  cases children with
  | nil => simp only [render_children]
  | cons c rest =>
      simp only [render_children]
      rw [render_element_congr c c1 c2 h stringify fragment,
        render_children_congr rest c1 c2 h stringify fragment]

termination_by (sizeOf children, 0, 0)

theorem renderIterations_congr (items : List RVal) (i : Nat)
    (loopvar : String) (cs : List Node) (c1 c2 : Ctx) (h : ctxEquiv c1 c2)
    (stringify : Bool) (fragment : Option String) :
    renderIterations items i loopvar cs c1 stringify fragment
      = renderIterations items i loopvar cs c2 stringify fragment := by
  cases items with
  | nil => simp only [renderIterations]
  | cons v rest =>
      simp only [renderIterations]
      rw [render_children_congr cs
          (aset (aset c1 loopvar v) (loopvar ++ "_index")
            (RVal.int (Int.ofNat i)))
          (aset (aset c2 loopvar v) (loopvar ++ "_index")
            (RVal.int (Int.ofNat i)))
          (ctxEquiv_aset (ctxEquiv_aset h loopvar v) (loopvar ++ "_index")
            (RVal.int (Int.ofNat i))) stringify fragment,
        renderIterations_congr rest (i + 1) loopvar cs c1 c2 h stringify
          fragment]

termination_by (sizeOf cs, 1, items.length)

theorem renderNode_congr (element : Node) (c1 c2 : Ctx) (h : ctxEquiv c1 c2)
    (stringify : Bool) (fragment : Option String) :
    renderNode element c1 stringify fragment
      = renderNode element c2 stringify fragment := by
  cases element with
  | base cs =>
      simp only [renderNode]
      rw [render_children_congr cs c1 c2 h stringify fragment]
  | fragment name cs =>
      simp only [renderNode]
      by_cases hf : fragment = Option.none ∨ fragment = Option.some name
      · rw [if_pos hf, if_pos hf,
          render_children_congr cs c1 c2 h stringify Option.none]
      · rw [if_neg hf, if_neg hf]
  | withContext adds cs =>
      simp only [renderNode]
      rw [render_children_congr cs (amerge c1 adds) (amerge c2 adds)
        (ctxEquiv_amerge h adds) stringify fragment]
  | ifElem cond cs =>
      simp only [renderNode]
      rw [resolveCondition_congr h cond]
      cases resolveCondition cond c2 with
      | error err =>
          obtain ⟨e, chain⟩ := err
          rfl
      | ok b =>
          cases b with
          | true =>
              cases cs with
              | nil => rfl
              | cons t rest =>
                  dsimp only
                  rw [render_element_congr t c1 c2 h stringify fragment]
          | false =>
              cases cs with
              | nil => rfl
              | cons a rest =>
                  cases rest with
                  | nil => rfl
                  | cons f rest2 =>
                      dsimp only
                      rw [render_element_congr f c1 c2 h stringify fragment]
  | iterator it loopvar cs =>
      simp only [renderNode]
      rw [resolveLazyNode_congr h it]
      cases resolveLazyNode it c2 with
      | error err =>
          obtain ⟨e, chain⟩ := err
          rfl
      | ok itv =>
          dsimp only
          cases iterItems itv with
          | error e => rfl
          | ok items =>
              dsimp only
              rw [renderIterations_congr items 0 loopvar cs c1 c2 h stringify
                fragment]
  | formatString fmt fmtSafe args kwargs =>
      simp only [renderNode]
      rw [formatEval_congr fmt fmtSafe args kwargs c1 c2 h]
  | html tag voidTag attrs cs => simp only [renderNode]
  | lit v => simp only [renderNode]
  | ctxValue p => simp only [renderNode]
  | ctxFunc oid res => simp only [renderNode]

termination_by (sizeOf element, 2, 0)

theorem flatattrs_congr (attributes : List (String × Node)) (c1 c2 : Ctx)
    (h : ctxEquiv c1 c2) :
    flatattrs attributes c1 = flatattrs attributes c2 := by
  simp only [flatattrs]
  rw [flatattrsGo_congr attributes c1 c2 h]

termination_by (sizeOf attributes, 1, 0)

theorem flatattrsGo_congr (attributes : List (String × Node)) (c1 c2 : Ctx)
    (h : ctxEquiv c1 c2) :
    flatattrsGo attributes c1 = flatattrsGo attributes c2 := by
  cases attributes with
  | nil => simp only [flatattrsGo]
  | cons p rest =>
      obtain ⟨key, value0⟩ := p
      simp only [flatattrsGo]
      rw [attrValueOf_congr value0 c1 c2 h]
      cases attrValueOf value0 c2 with
      | error err => rfl
      | ok r =>
          obtain ⟨valOpt, evs⟩ := r
          rw [flatattrsGo_congr rest c1 c2 h]

termination_by (sizeOf attributes, 0, 0)

theorem attrValueOf_congr (value0 : Node) (c1 c2 : Ctx)
    (h : ctxEquiv c1 c2) :
    attrValueOf value0 c1 = attrValueOf value0 c2 := by
  cases value0 with
  | lit v => simp only [attrValueOf]
  | ctxValue p =>
      simp only [attrValueOf]
      rw [resolve_lookup_congr h]
  | ctxFunc oid res =>
      cases res with
      | error e => simp only [attrValueOf]
      | ok v => simp only [attrValueOf]
  | ifElem cond cs =>
      simp only [attrValueOf]
      rw [renderNode_congr (Node.ifElem cond cs) c1 c2 h false Option.none,
        renderNode_congr (Node.ifElem cond cs) c1 c2 h true Option.none]
  | base cs =>
      simp only [attrValueOf]
      rw [renderValueDirect_congr (Node.base cs) c1 c2 h]
  | fragment name cs =>
      simp only [attrValueOf]
      rw [renderValueDirect_congr (Node.fragment name cs) c1 c2 h]
  | withContext adds cs =>
      simp only [attrValueOf]
      rw [renderValueDirect_congr (Node.withContext adds cs) c1 c2 h]
  | iterator it loopvar cs =>
      simp only [attrValueOf]
      rw [renderValueDirect_congr (Node.iterator it loopvar cs) c1 c2 h]
  | formatString fmt fmtSafe args kwargs =>
      simp only [attrValueOf]
      rw [renderValueDirect_congr (Node.formatString fmt fmtSafe args kwargs)
        c1 c2 h]
  | html tag voidTag attrs cs =>
      simp only [attrValueOf]
      rw [renderValueDirect_congr (Node.html tag voidTag attrs cs) c1 c2 h]

termination_by (sizeOf value0, 5, 0)

theorem renderValueDirect_congr (value1 : Node) (c1 c2 : Ctx)
    (h : ctxEquiv c1 c2) :
    renderValueDirect value1 c1 = renderValueDirect value1 c2 := by
  cases value1 with
  | html tag voidTag attrs cs =>
      simp only [renderValueDirect]
      rw [flatattrs_congr attrs c1 c2 h]
      cases flatattrs attrs c2 with
      | error err =>
          obtain ⟨e, chain⟩ := err
          rfl
      | ok r =>
          obtain ⟨astr, evs⟩ := r
          rw [render_children_congr cs c1 c2 h true Option.none]
  | lit v =>
      simp only [renderValueDirect]
      exact renderNode_congr (Node.lit v) c1 c2 h true Option.none
  | ctxValue p =>
      simp only [renderValueDirect]
      exact renderNode_congr (Node.ctxValue p) c1 c2 h true Option.none
  | ctxFunc oid res =>
      simp only [renderValueDirect]
      exact renderNode_congr (Node.ctxFunc oid res) c1 c2 h true Option.none
  | base cs =>
      simp only [renderValueDirect]
      exact renderNode_congr (Node.base cs) c1 c2 h true Option.none
  | fragment name cs =>
      simp only [renderValueDirect]
      exact renderNode_congr (Node.fragment name cs) c1 c2 h true Option.none
  | withContext adds cs =>
      simp only [renderValueDirect]
      exact renderNode_congr (Node.withContext adds cs) c1 c2 h true
        Option.none
  | ifElem cond cs =>
      simp only [renderValueDirect]
      exact renderNode_congr (Node.ifElem cond cs) c1 c2 h true Option.none
  | iterator it loopvar cs =>
      simp only [renderValueDirect]
      exact renderNode_congr (Node.iterator it loopvar cs) c1 c2 h true
        Option.none
  | formatString fmt fmtSafe args kwargs =>
      simp only [renderValueDirect]
      exact renderNode_congr (Node.formatString fmt fmtSafe args kwargs) c1 c2
        h true Option.none

termination_by (sizeOf value1, 3, 0)

theorem renderTopModel_congr (root : Node) (c1 c2 : Ctx)
    (h : ctxEquiv c1 c2) (fragment : Option String) :
    renderTopModel root c1 fragment = renderTopModel root c2 fragment := by
  cases root with
  | html tag voidTag attrs cs => simp only [renderTopModel]
  | lit v => simp only [renderTopModel]
  | ctxValue p => simp only [renderTopModel]
  | ctxFunc oid res => simp only [renderTopModel]
  | base cs =>
      simp only [renderTopModel]
      rw [renderNode_congr (Node.base cs) c1 c2 h true fragment]
  | fragment name cs =>
      simp only [renderTopModel]
      rw [renderNode_congr (Node.fragment name cs) c1 c2 h true fragment]
  | withContext adds cs =>
      simp only [renderTopModel]
      rw [renderNode_congr (Node.withContext adds cs) c1 c2 h true fragment]
  | ifElem cond cs =>
      simp only [renderTopModel]
      rw [renderNode_congr (Node.ifElem cond cs) c1 c2 h true fragment]
  | iterator it loopvar cs =>
      simp only [renderTopModel]
      rw [renderNode_congr (Node.iterator it loopvar cs) c1 c2 h true
        fragment]
  | formatString fmt fmtSafe args kwargs =>
      simp only [renderTopModel]
      rw [renderNode_congr (Node.formatString fmt fmtSafe args kwargs) c1 c2 h
        true fragment]

termination_by (sizeOf root, 3, 0)

theorem extract_congr (value : Node) (c1 c2 : Ctx) (h : ctxEquiv c1 c2) :
    extract value c1 = extract value c2 := by
  cases value with
  | lit v => cases v <;> simp only [extract]
  | ctxValue p =>
      simp only [extract]
      rw [resolveLazyNode_congr h (Node.ctxValue p)]
  | ctxFunc oid res =>
      simp only [extract]
      rw [resolveLazyNode_congr h (Node.ctxFunc oid res)]
  | base cs =>
      simp only [extract]
      rw [renderTopModel_congr (Node.base cs) c1 c2 h Option.none]
  | fragment name cs =>
      simp only [extract]
      rw [renderTopModel_congr (Node.fragment name cs) c1 c2 h Option.none]
  | withContext adds cs =>
      simp only [extract]
      rw [renderTopModel_congr (Node.withContext adds cs) c1 c2 h Option.none]
  | ifElem cond cs =>
      simp only [extract]
      rw [renderTopModel_congr (Node.ifElem cond cs) c1 c2 h Option.none]
  | iterator it loopvar cs =>
      simp only [extract]
      rw [renderTopModel_congr (Node.iterator it loopvar cs) c1 c2 h
        Option.none]
  | formatString fmt fmtSafe args kwargs =>
      simp only [extract]
      rw [renderTopModel_congr (Node.formatString fmt fmtSafe args kwargs) c1
        c2 h Option.none]
  | html tag voidTag attrs cs =>
      simp only [extract]
      rw [renderTopModel_congr (Node.html tag voidTag attrs cs) c1 c2 h
        Option.none]

termination_by (sizeOf value, 4, 0)

theorem mapExtract_congr (args : List Node) (c1 c2 : Ctx)
    (h : ctxEquiv c1 c2) : mapExtract args c1 = mapExtract args c2 := by
  cases args with
  | nil => simp only [mapExtract]
  | cons a rest =>
      simp only [mapExtract]
      rw [extract_congr a c1 c2 h, mapExtract_congr rest c1 c2 h]

termination_by (sizeOf args, 5, 0)

theorem mapExtractKw_congr (kwargs : List (String × Node)) (c1 c2 : Ctx)
    (h : ctxEquiv c1 c2) : mapExtractKw kwargs c1 = mapExtractKw kwargs c2 := by
  cases kwargs with
  | nil => simp only [mapExtractKw]
  | cons p rest =>
      obtain ⟨k, a⟩ := p
      simp only [mapExtractKw]
      rw [extract_congr a c1 c2 h, mapExtractKw_congr rest c1 c2 h]

termination_by (sizeOf kwargs, 5, 0)

theorem vformatSegs_congr (segs : List Seg) (autoSt : Option Nat)
    (fmtSafe : Bool) (args : List Node) (kwargs : List (String × Node))
    (c1 c2 : Ctx) (h : ctxEquiv c1 c2) :
    vformatSegs segs autoSt fmtSafe args kwargs c1
      = vformatSegs segs autoSt fmtSafe args kwargs c2 := by
  cases segs with
  | nil => simp only [vformatSegs]
  | cons s rest =>
      cases s with
      | lit str =>
          simp only [vformatSegs]
          rw [vformatSegs_congr rest autoSt fmtSafe args kwargs c1 c2 h]
      | field name spec conv =>
          conv_lhs => rw [vformatSegs.eq_def]
          conv_rhs => rw [vformatSegs.eq_def]
          dsimp only
          rw [mapExtract_congr args c1 c2 h, mapExtractKw_congr kwargs c1 c2 h]
          split
          · rfl
          · split
            · rfl
            · split
              · rfl
              · split
                · rfl
                · cases conv with
                  | some cv => rfl
                  | none =>
                      by_cases hs : spec ≠ ""
                      · rw [if_pos hs, if_pos hs]
                      · rw [if_neg hs, if_neg hs,
                          vformatSegs_congr rest _ fmtSafe args kwargs c1 c2 h]

termination_by (sizeOf args + sizeOf kwargs, 0, segs.length)
decreasing_by
  all_goals simp_wf
  all_goals
    first
      | (apply Prod.Lex.right; apply Prod.Lex.right; simp_arith)
      | (apply Prod.Lex.left
         have hk : 0 < sizeOf kwargs := by cases kwargs <;> simp_arith
         have ha : 0 < sizeOf args := by cases args <;> simp_arith
         omega)

theorem formatEval_congr (fmt : String) (fmtSafe : Bool) (args : List Node)
    (kwargs : List (String × Node)) (c1 c2 : Ctx) (h : ctxEquiv c1 c2) :
    formatEval fmt fmtSafe args kwargs c1
      = formatEval fmt fmtSafe args kwargs c2 := by
  simp only [formatEval]
  cases parseFormat fmt with
  | error e => rfl
  | ok segs =>
      dsimp only
      rw [vformatSegs_congr segs (Option.some 0) fmtSafe args kwargs c1 c2 h]

termination_by (sizeOf args + sizeOf kwargs, 1, 0)

end

/-- C9: for every tree and every pair of equal context mappings (equal in
the sense of Python dict equality, i.e. the same key-to-value mapping
regardless of entry order), rendering yields identical results - the same
output string and the same exception-handler invocations.  Rendering is
modelled as a pure function of the tree and the context precisely because
the source's render paths never assign into the tree (Iterator and
WithContext work on copies of the context dict), so tree non-mutation and
run-to-run determinism are captured by this congruence: two renders of the
same tree against equal contexts are the same value. -/
theorem C9_render_context_extensional (root : Node) (c1 c2 : Ctx)
    (fragment : Option String) (h : ctxEquiv c1 c2) :
    renderTopModel root c1 fragment = renderTopModel root c2 fragment :=
  renderTopModel_congr root c1 c2 h fragment

theorem C9_witness :
    ctxEquiv [("a", RVal.int 1), ("b", RVal.int 2)]
        [("b", RVal.int 2), ("a", RVal.int 1)] ∧
      renderTopModel (Node.base [Node.ctxValue "a"])
          [("a", RVal.int 1), ("b", RVal.int 2)] Option.none
        = renderTopModel (Node.base [Node.ctxValue "a"])
            [("b", RVal.int 2), ("a", RVal.int 1)] Option.none := by
  have hequiv : ctxEquiv [("a", RVal.int 1), ("b", RVal.int 2)]
      [("b", RVal.int 2), ("a", RVal.int 1)] := by
    intro k
    by_cases h1 : "a" = k
    · subst h1
      have h2 : ¬ ("b" = "a") := by decide
      simp [alookup, h2]
    · by_cases h2 : "b" = k
      · subst h2
        simp [alookup, h1]
      · simp [alookup, h1, h2]
  exact ⟨hequiv,
    C9_render_context_extensional (Node.base [Node.ctxValue "a"])
      [("a", RVal.int 1), ("b", RVal.int 2)]
      [("b", RVal.int 2), ("a", RVal.int 1)] Option.none hequiv⟩
